import Mathlib

/-
  Verification development for the ncurses Pac-Man clone (pacman_k3.py).

  The Python game is shallowly embedded: the mutable `Game` object becomes
  an immutable record, each method becomes a state-transforming function,
  `time.time()` becomes an explicit rational parameter `t`, and the calls
  to `random.choice` / `random.random` consume explicit oracle streams
  (`Rng`).  Rendering-only state (previous positions, curses attributes,
  kindle mode) is omitted: no game-logic branch reads it.
-/

namespace PacmanK3

/-- Grid position, the Python `Point(y, x)` class (row, column integers,
equality and hashing by value). -/
structure Point where
  y : Int
  x : Int
deriving DecidableEq

/-- Player state, the Python `PacMan` game object: position, velocity and
buffered intended velocity. -/
structure PacMan where
  y : Int
  x : Int
  dy : Int
  dx : Int
  next_dy : Int
  next_dx : Int
deriving DecidableEq

/-- Adversary state, the Python `Ghost` game object: position, velocity and
the frightened flag. -/
structure Ghost where
  y : Int
  x : Int
  dy : Int
  dx : Int
  frightened : Bool
deriving DecidableEq

/-- The whole mutable state of the Python `Game` object (rendering-only
fields omitted).  Times are rationals, 0 meaning "inactive" as in the
source. -/
structure Game where
  original_map : List (List Char)
  height : Nat
  width : Nat
  score : Nat
  lives : Nat
  game_over : Bool
  won : Bool
  power_mode_time : ℚ
  pellets_remaining : Int
  speed : ℚ
  level : Nat
  extra_life_awarded : Bool
  fruit_spawn_time : ℚ
  fruit_active : Bool
  dots_eaten : Nat
  fruit_triggered_70 : Bool
  fruit_triggered_170 : Bool
  pacman : Option PacMan
  ghosts : List Ghost
  fruit : Option Point
  pellets : Finset Point
  power_pills : Finset Point
  initial_pellets : Finset Point
  initial_power_pills : Finset Point
  initial_fruit : Option Point
  warp_left : Option Point
  warp_right : Option Point
  pacman_start : Option Point
  ghost_starts : List Point
deriving DecidableEq

/-- Oracle streams for the two kinds of random draws the source makes:
`picks` feeds `random.choice` (index into the offered list, taken modulo
its length) and `coins` feeds the `random.random() < 0.3` junction test. -/
structure Rng where
  picks : List Nat
  coins : List Bool
deriving DecidableEq

/-- Consume one `random.choice` draw. -/
def Rng.pick (r : Rng) : Nat × Rng :=
  (r.picks.headD 0, ⟨r.picks.tail, r.coins⟩)

/-- Consume one `random.random() < 0.3` draw. -/
def Rng.coin (r : Rng) : Bool × Rng :=
  (r.coins.headD false, ⟨r.picks, r.coins.tail⟩)

/-- The Python `random.choice(dirs)` on a nonempty list, with the oracle
choosing the index. -/
def choose (r : Rng) (dirs : List (Int × Int)) : (Int × Int) × Rng :=
  (dirs.getD (r.pick.1 % dirs.length) (0, 0), r.pick.2)

/-- Read the character grid at a (row, column) index; callers check bounds
first, as `is_wall` / `is_valid_move` do in the source. -/
def cellAt (m : List (List Char)) (y x : Int) : Char :=
  (m.getD y.toNat []).getD x.toNat ' '

/-- Write one grid cell (used by `parse_map` to blank out marker cells). -/
def setCell (m : List (List Char)) (y x : Int) (c : Char) : List (List Char) :=
  m.set y.toNat ((m.getD y.toNat []).set x.toNat c)

/-- Python `Game.is_wall`: out-of-bounds counts as a wall (fail closed). -/
def is_wall (g : Game) (y x : Int) : Bool :=
  if 0 ≤ y ∧ y < (g.height : Int) ∧ 0 ≤ x ∧ x < (g.width : Int) then
    cellAt g.original_map y x == '#'
  else true

/-- Python `Game.is_valid_move`: in-bounds and not a wall. -/
def is_valid_move (g : Game) (y x : Int) : Bool :=
  if 0 ≤ y ∧ y < (g.height : Int) ∧ 0 ≤ x ∧ x < (g.width : Int) then
    cellAt g.original_map y x != '#'
  else false

/-- Python `Game.get_valid_directions`: the axis directions whose neighbour
cell is a legal move, in the source's fixed order. -/
def get_valid_directions (g : Game) (y x : Int) : List (Int × Int) :=
  [(-1, 0), (1, 0), (0, -1), (0, 1)].filter
    (fun d => is_valid_move g (y + d.1) (x + d.2))

/-- Python `Game.is_junction`: more than two legal exits. -/
def is_junction (g : Game) (y x : Int) : Bool :=
  (get_valid_directions g y x).length > 2

/-- Python `Game.check_extra_life`: award one extra life at 10000 points,
once per game. -/
def check_extra_life (g : Game) : Game :=
  if g.extra_life_awarded = false ∧ 10000 ≤ g.score then
    { g with lives := g.lives + 1, extra_life_awarded := true }
  else g

/-- Python `Game.spawn_fruit` at time `t`: activate the bonus item and
start its timer, provided the map defined one. -/
def spawn_fruit (t : ℚ) (g : Game) : Game :=
  if g.initial_fruit.isSome then
    { g with fruit_active := true, fruit_spawn_time := t }
  else g

/-- Python `Game.update_fruit` at time `t`: expire the bonus item after 10
time-units. -/
def update_fruit (t : ℚ) (g : Game) : Game :=
  if g.fruit_active = true ∧ 10 < t - g.fruit_spawn_time then
    { g with fruit_active := false }
  else g

/-- The two fruit-spawn threshold checks that follow each pellet / power
pill pickup in `move_pacman` (dots-eaten counter already incremented). -/
def fruit_trigger_check (t : ℚ) (g : Game) : Game :=
  if g.dots_eaten = 70 ∧ g.fruit_triggered_70 = false then
    { spawn_fruit t g with fruit_triggered_70 := true }
  else if g.dots_eaten = 170 ∧ g.fruit_triggered_170 = false then
    { spawn_fruit t g with fruit_triggered_170 := true }
  else g

/-- The warp-tunnel test shared by `move_pacman` and `move_ghosts`: an
agent standing on `warp_left` moving left teleports to `warp_right`, and
symmetrically; requires both endpoints to be defined. -/
def warp_target (g : Game) (y x dx : Int) : Option Point :=
  match g.warp_left, g.warp_right with
  | some wl, some wr =>
    if y = wl.y ∧ x = wl.x ∧ dx < 0 then some wr
    else if y = wr.y ∧ x = wr.x ∧ 0 < dx then some wl
    else none
  | _, _ => none

/-- First phase of `move_pacman`: adopt the buffered intended direction
when stepping in it is legal. -/
def apply_intent (g : Game) (p : PacMan) : PacMan :=
  if (p.next_dy ≠ 0 ∨ p.next_dx ≠ 0) ∧
      is_valid_move g (p.y + p.next_dy) (p.x + p.next_dx) then
    { p with dy := p.next_dy, dx := p.next_dx, next_dy := 0, next_dx := 0 }
  else p

/-- Normal (non-warp) step of the player: advance if legal, else stop. -/
def pacman_step (g : Game) (p : PacMan) : PacMan :=
  if is_valid_move g (p.y + p.dy) (p.x + p.dx) then
    { p with y := p.y + p.dy, x := p.x + p.dx }
  else { p with dy := 0, dx := 0 }

/-- The pellet branch of the pickup block in `move_pacman`: remove the
pellet at `pos`, +10 score, bump counters, re-check extra life and fruit
thresholds. -/
def pellet_step (t : ℚ) (pos : Point) (g : Game) : Game :=
  if pos ∈ g.pellets then
    fruit_trigger_check t (check_extra_life
      { g with pellets := g.pellets.erase pos, score := g.score + 10,
               pellets_remaining := g.pellets_remaining - 1,
               dots_eaten := g.dots_eaten + 1 })
  else g

/-- The power-pill branch: remove the pill, +50 score, bump counters,
re-check extra life and fruit thresholds, then restart the power-mode
timer and frighten every ghost. -/
def pill_step (t : ℚ) (pos : Point) (g : Game) : Game :=
  if pos ∈ g.power_pills then
    let ga := fruit_trigger_check t (check_extra_life
      { g with power_pills := g.power_pills.erase pos,
               score := g.score + 50,
               pellets_remaining := g.pellets_remaining - 1,
               dots_eaten := g.dots_eaten + 1 })
    { ga with power_mode_time := t,
              ghosts := ga.ghosts.map (fun gh => { gh with frightened := true }) }
  else g

/-- The bonus-item branch: +100 score if standing on the active fruit. -/
def fruit_step (pos : Point) (g : Game) : Game :=
  match g.fruit with
  | some f =>
    if g.fruit_active = true ∧ pos.y = f.y ∧ pos.x = f.x then
      check_extra_life { g with score := g.score + 100, fruit_active := false }
    else g
  | none => g

/-- The win check ending `move_pacman`. -/
def win_step (g : Game) : Game :=
  if g.pellets_remaining = 0 then { g with won := true } else g

/-- The pickup block at the end of `move_pacman`: pellet, power pill,
fruit, then the win check, in source order, all at the player's current
position. -/
def collect (t : ℚ) (g : Game) : Game :=
  match g.pacman with
  | none => g
  | some p =>
    win_step (fruit_step ⟨p.y, p.x⟩ (pill_step t ⟨p.y, p.x⟩ (pellet_step t ⟨p.y, p.x⟩ g)))

/-- Python `Game.move_pacman` at time `t`.  On a warp the source returns
early, before the pickup block. -/
def move_pacman (t : ℚ) (g : Game) : Game :=
  match g.pacman with
  | none => g
  | some p0 =>
    let p1 := apply_intent g p0
    if p1.dy ≠ 0 ∨ p1.dx ≠ 0 then
      match warp_target g p1.y p1.x p1.dx with
      | some q => { g with pacman := some { p1 with y := q.y, x := q.x } }
      | none => collect t { g with pacman := some (pacman_step g p1) }
    else collect t { g with pacman := some p1 }

/-- Python `Game.check_ghost_collision_with_crossing`: co-location, or the
player and the adversary swapped cells this tick (the player's previous
cell is reconstructed from its current velocity). -/
def check_ghost_collision_with_crossing (g : Game) (gh : Ghost)
    (old_gy old_gx : Int) : Bool :=
  match g.pacman with
  | none => false
  | some p =>
    if gh.y = p.y ∧ gh.x = p.x then true
    else
      decide (p.y - p.dy = gh.y ∧ p.x - p.dx = gh.x ∧
              old_gy = p.y ∧ old_gx = p.x)

/-- Python `Game.reset_positions`: player and all adversaries back to their
recorded starts, all velocities and frightened flags cleared, power-mode
timer cleared.  (The source would fault on a `None` player; every caller
has one.) -/
def reset_positions (g : Game) : Game :=
  let g1 :=
    match g.pacman with
    | none => g
    | some p =>
      let p1 :=
        match g.pacman_start with
        | some s => { p with y := s.y, x := s.x }
        | none => p
      { g with pacman := some { p1 with dy := 0, dx := 0, next_dy := 0, next_dx := 0 } }
  let ghosts := g1.ghosts.enum.map (fun iz =>
    let gh1 :=
      match g1.ghost_starts.get? iz.1 with
      | some s => { iz.2 with y := s.y, x := s.x }
      | none => iz.2
    { gh1 with dy := 0, dx := 0, frightened := false })
  { g1 with ghosts := ghosts, power_mode_time := 0 }

/-- Python `Game.handle_collision` for the ghost at index `i` (the source
passes the ghost object and recovers this index with `list.index`). -/
def handle_collision (g : Game) (i : Nat) : Game :=
  match g.ghosts.get? i with
  | none => g
  | some gh =>
    if gh.frightened then
      let g1 := { g with score := g.score + 200 }
      let gh1 :=
        match g1.ghost_starts.get? i with
        | some s => { gh with y := s.y, x := s.x }
        | none => gh
      { g1 with ghosts := g1.ghosts.set i { gh1 with frightened := false, dy := 0, dx := 0 } }
    else
      if 0 < g.lives then
        let g1 := { g with lives := g.lives - 1 }
        if g1.lives = 0 then { g1 with game_over := true }
        else reset_positions g1
      else g

/-- First decision step of `move_ghosts` for one adversary: a stationary
ghost picks a random legal direction. -/
def ghost_init_dir (g : Game) (r : Rng) (gh0 : Ghost) : Ghost × Rng :=
  if gh0.dy = 0 ∧ gh0.dx = 0 then
    let dirs := get_valid_directions g gh0.y gh0.x
    if dirs.isEmpty then (gh0, r)
    else
      let c := choose r dirs
      ({ gh0 with dy := c.1.1, dx := c.1.2 }, c.2)
  else (gh0, r)

/-- Second decision step: at a junction, with the oracle's coin, re-pick a
direction excluding the reverse of the current one (keeping the current
choice when exclusion empties the list). -/
def ghost_junction_dir (g : Game) (r : Rng) (gh : Ghost) : Ghost × Rng :=
  if is_junction g gh.y gh.x then
    let c := r.coin
    if c.1 then
      let dirs := get_valid_directions g gh.y gh.x
      if dirs.isEmpty then (gh, c.2)
      else
        let newdirs := dirs.filter (fun d => d ≠ (-gh.dy, -gh.dx))
        if newdirs.isEmpty then (gh, c.2)
        else
          let ch := choose c.2 newdirs
          ({ gh with dy := ch.1.1, dx := ch.1.2 }, ch.2)
    else (gh, c.2)
  else (gh, r)

/-- The direction-decision prelude of one adversary's move: initialize a
zero velocity with a random legal direction, then maybe re-pick at a
junction, excluding the reverse direction. -/
def ghost_decide (g : Game) (r : Rng) (gh0 : Ghost) : Ghost × Rng :=
  let a := ghost_init_dir g r gh0
  ghost_junction_dir g a.2 a.1

/-- One iteration of the `move_ghosts` loop for the ghost at index `i`.
Returns the new state, the remaining oracle, and whether the source's
early `return` (collision leaving `game_over` set) fires. -/
def move_one_ghost (r : Rng) (g : Game) (i : Nat) : Game × Rng × Bool :=
  match g.ghosts.get? i with
  | none => (g, r, false)
  | some gh0 =>
    let old_y := gh0.y
    let old_x := gh0.x
    let dec := ghost_decide g r gh0
    let gh := dec.1
    let r1 := dec.2
    match warp_target g gh.y gh.x gh.dx with
    | some q =>
      let gh' := { gh with y := q.y, x := q.x }
      let g' := { g with ghosts := g.ghosts.set i gh' }
      if check_ghost_collision_with_crossing g' gh' old_y old_x then
        let g2 := handle_collision g' i
        (g2, r1, g2.game_over)
      else (g', r1, false)
    | none =>
      if is_valid_move g (gh.y + gh.dy) (gh.x + gh.dx) then
        let gh' := { gh with y := gh.y + gh.dy, x := gh.x + gh.dx }
        let g' := { g with ghosts := g.ghosts.set i gh' }
        if check_ghost_collision_with_crossing g' gh' old_y old_x then
          let g2 := handle_collision g' i
          (g2, r1, g2.game_over)
        else (g', r1, false)
      else
        let dirs := get_valid_directions g gh.y gh.x
        if dirs.isEmpty then ({ g with ghosts := g.ghosts.set i gh }, r1, false)
        else
          let c := choose r1 dirs
          ({ g with ghosts := g.ghosts.set i { gh with dy := c.1.1, dx := c.1.2 } }, c.2, false)

/-- The per-ghost loop of `move_ghosts`, stopping early when a collision
leaves `game_over` set. -/
def move_ghosts_loop (r : Rng) (g : Game) : List Nat → Game
  | [] => g
  | i :: rest =>
    let res := move_one_ghost r g i
    if res.2.2 then res.1 else move_ghosts_loop res.2.1 res.1 rest

/-- Python `Game.move_ghosts` at time `t`: expire power mode after 6
time-units, update the fruit timer, then move each ghost in list order
with interleaved collision handling. -/
def move_ghosts (t : ℚ) (r : Rng) (g : Game) : Game :=
  let ga :=
    if 0 < g.power_mode_time ∧ 6 < t - g.power_mode_time then
      { g with power_mode_time := 0,
               ghosts := g.ghosts.map (fun gh => { gh with frightened := false }) }
    else g
  let gb := update_fruit t ga
  move_ghosts_loop r gb (List.range gb.ghosts.length)

/-- Index of the first ghost co-located with the player, if any. -/
def collide_index (p : PacMan) (ghosts : List Ghost) : Option Nat :=
  (List.range ghosts.length).find? (fun i =>
    match ghosts.get? i with
    | some gh => gh.y == p.y && gh.x == p.x
    | none => false)

/-- Python `Game.check_collisions`: the whole-board co-location sweep run
once after all adversary moves. -/
def check_collisions (g : Game) : Game :=
  match g.pacman with
  | none => g
  | some p =>
    match collide_index p g.ghosts with
    | some i => handle_collision g i
    | none => g

/-- One full simulation tick as executed by the run loop when the game is
live and the speed interval has elapsed: player move, adversary moves,
then the final collision sweep. -/
def tick (t : ℚ) (r : Rng) (g : Game) : Game :=
  check_collisions (move_ghosts t r (move_pacman t g))

/-- Python `Game.next_level`: advance level, clear the mode timers and the
level-local fruit state, restore collectibles from the immutable initial
snapshots, reset positions, and speed up toward the 0.08 floor. -/
def next_level (g : Game) : Game :=
  let g1 := { g with
    level := g.level + 1, won := false, power_mode_time := 0,
    fruit_spawn_time := 0, fruit_active := false, dots_eaten := 0,
    fruit_triggered_70 := false, fruit_triggered_170 := false,
    pellets := g.initial_pellets, power_pills := g.initial_power_pills }
  let g2 := { g1 with
    pellets_remaining := (g1.pellets.card : Int) + (g1.power_pills.card : Int) }
  let g3 :=
    match g2.initial_fruit with
    | some f => { g2 with fruit := some f }
    | none => g2
  let g4 := reset_positions g3
  { g4 with speed := max (8 / 100 : ℚ) (g4.speed - 1 / 100) }

/-- Python `Game.reset_game`: the full game reset offered from the Won and
GameOver screens. -/
def reset_game (g : Game) : Game :=
  let g1 := { g with
    score := 0, lives := 3, game_over := false, won := false,
    power_mode_time := 0, level := 1, extra_life_awarded := false,
    fruit_spawn_time := 0, fruit_active := false, dots_eaten := 0,
    fruit_triggered_70 := false, fruit_triggered_170 := false,
    pellets := g.initial_pellets, power_pills := g.initial_power_pills }
  let g2 := { g1 with
    pellets_remaining := (g1.pellets.card : Int) + (g1.power_pills.card : Int) }
  let g3 :=
    match g2.initial_fruit with
    | some f => { g2 with fruit := some f }
    | none => g2
  let g4 := { g3 with speed := 15 / 100 }
  reset_positions g4

/-- The input intents the run loop distinguishes. -/
inductive Key where
  | up
  | down
  | left
  | right
  | quit
  | reset
  | advance
  | noKey
deriving DecidableEq

/-- The key-dispatch block of the run loop.  `none` models the
`AttributeError` the source raises when a direction key arrives while
`self.pacman` is `None` (empty world). -/
def handle_input (g : Game) (k : Key) : Option Game :=
  match k with
  | .quit => some g
  | .reset => if g.game_over = true ∨ g.won = true then some (reset_game g) else some g
  | .advance => if g.won = true then some (next_level g) else some g
  | .noKey => some g
  | .up | .down | .left | .right =>
    if g.game_over = false ∧ g.won = false then
      match g.pacman with
      | none => none
      | some p =>
        match k with
        | .up => some { g with pacman := some { p with next_dy := -1, next_dx := 0 } }
        | .down => some { g with pacman := some { p with next_dy := 1, next_dx := 0 } }
        | .left => some { g with pacman := some { p with next_dy := 0, next_dx := -1 } }
        | _ => some { g with pacman := some { p with next_dy := 0, next_dx := 1 } }
    else some g

/-- Width computed by `load_map`: the maximum row length. -/
def widthOf (m : List (List Char)) : Nat :=
  m.foldl (fun w row => max w row.length) 0

/-- The row padding from `load_map`: every row right-padded with spaces to
the maximum width. -/
def pad_map (m : List (List Char)) : List (List Char) :=
  m.map (fun row => row ++ List.replicate (widthOf m - row.length) ' ')

/-- The (accidental) `rstrip('\x5c\x6e')` of `load_map`: strips trailing
backslash and letter-n characters, not the newline. -/
def rstrip_slash_n (cs : List Char) : List Char :=
  ((cs.reverse.dropWhile (fun c => c = '\\' ∨ c = 'n')).reverse)

/-- Python `Game.load_map`: a missing or unreadable file degrades to zero
lines; rows are stripped and padded to a common width. -/
def load_map (src : Option (List (List Char))) : List (List Char) :=
  let lines := src.getD []
  pad_map (lines.map rstrip_slash_n)

/-- The `Game.__init__` defaults, with the loaded map installed. -/
def init_game (m : List (List Char)) : Game :=
  { original_map := m, height := m.length, width := widthOf m,
    score := 0, lives := 3, game_over := false, won := false,
    power_mode_time := 0, pellets_remaining := 0, speed := 15 / 100,
    level := 1, extra_life_awarded := false,
    fruit_spawn_time := 0, fruit_active := false, dots_eaten := 0,
    fruit_triggered_70 := false, fruit_triggered_170 := false,
    pacman := none, ghosts := [], fruit := none,
    pellets := ∅, power_pills := ∅,
    initial_pellets := ∅, initial_power_pills := ∅,
    initial_fruit := none, warp_left := none, warp_right := none,
    pacman_start := none, ghost_starts := [] }

/-- The cells of the grid in row-major order with their coordinates, as
`parse_map` enumerates them. -/
def gridCells (m : List (List Char)) : List (Int × Int × Char) :=
  (m.enum.map (fun yr =>
    yr.2.enum.map (fun xc => ((yr.1 : Int), (xc.1 : Int), xc.2)))).flatten

/-- One cell of `parse_map`: record special markers (blanking their cell)
or add collectibles. -/
def parse_cell (g : Game) (yxc : Int × Int × Char) : Game :=
  let y := yxc.1
  let x := yxc.2.1
  let c := yxc.2.2
  if c = 'c' then
    { g with pacman_start := some ⟨y, x⟩,
             pacman := some { y := y, x := x, dy := 0, dx := 0, next_dy := 0, next_dx := 0 },
             original_map := setCell g.original_map y x ' ' }
  else if c = 'n' then
    { g with ghost_starts := g.ghost_starts ++ [⟨y, x⟩],
             ghosts := g.ghosts ++ [{ y := y, x := x, dy := 0, dx := 0, frightened := false }],
             original_map := setCell g.original_map y x ' ' }
  else if c = '@' then
    { g with fruit := some ⟨y, x⟩, initial_fruit := some ⟨y, x⟩,
             original_map := setCell g.original_map y x ' ' }
  else if c = '<' then
    { g with warp_left := some ⟨y, x⟩,
             original_map := setCell g.original_map y x ' ' }
  else if c = '>' then
    { g with warp_right := some ⟨y, x⟩,
             original_map := setCell g.original_map y x ' ' }
  else if c = '.' then
    { g with pellets := insert ⟨y, x⟩ g.pellets,
             initial_pellets := insert ⟨y, x⟩ g.initial_pellets }
  else if c = 'o' then
    { g with power_pills := insert ⟨y, x⟩ g.power_pills,
             initial_power_pills := insert ⟨y, x⟩ g.initial_power_pills }
  else g

/-- Python `Game.parse_map`: sweep the grid recording markers and
collectibles, then set `pellets_remaining`. -/
def parse_map (g : Game) : Game :=
  let g1 := (gridCells g.original_map).foldl parse_cell g
  { g1 with pellets_remaining := (g1.pellets.card : Int) + (g1.power_pills.card : Int) }

/-- Game construction as in `Game.__init__`: load the map, apply the init
defaults, parse. -/
def new_game (src : Option (List (List Char))) : Game :=
  parse_map (init_game (load_map src))

/-! ### Concrete test fixtures -/

/-- A minimal 3x5 corridor maze. -/
def mapA : List (List Char) := ["#####".toList, "#   #".toList, "#####".toList]

/-- Corridor game: player at (1,1), two non-frightened adversaries at
(1,2) and (1,3), one pellet left at (1,3). -/
def gA : Game :=
  { original_map := mapA, height := 3, width := 5,
    score := 0, lives := 3, game_over := false, won := false,
    power_mode_time := 0, pellets_remaining := 1, speed := 15 / 100,
    level := 1, extra_life_awarded := false,
    fruit_spawn_time := 0, fruit_active := false, dots_eaten := 0,
    fruit_triggered_70 := false, fruit_triggered_170 := false,
    pacman := some { y := 1, x := 1, dy := 0, dx := 0, next_dy := 0, next_dx := 0 },
    ghosts := [{ y := 1, x := 2, dy := 0, dx := 0, frightened := false },
               { y := 1, x := 3, dy := 0, dx := 0, frightened := false }],
    fruit := none, pellets := {⟨1, 3⟩}, power_pills := ∅,
    initial_pellets := {⟨1, 3⟩}, initial_power_pills := ∅,
    initial_fruit := none, warp_left := none, warp_right := none,
    pacman_start := some ⟨1, 1⟩, ghost_starts := [⟨1, 2⟩, ⟨1, 3⟩] }

/-- A 7x7 maze whose only open cells are (5,3), (5,4), (5,5), hosting the
spec's crossing-path scenario at rows/columns 5/4/5. -/
def mapB : List (List Char) :=
  ["#######".toList, "#######".toList, "#######".toList, "#######".toList,
   "#######".toList, "###   #".toList, "#######".toList]

/-- Crossing-path game: the player has just moved (5,5) to (5,4) (velocity
(0,-1)); the frightened adversary stands at (5,4) moving right. -/
def gB : Game :=
  { original_map := mapB, height := 7, width := 7,
    score := 0, lives := 3, game_over := false, won := false,
    power_mode_time := 0, pellets_remaining := 1, speed := 15 / 100,
    level := 1, extra_life_awarded := false,
    fruit_spawn_time := 0, fruit_active := false, dots_eaten := 0,
    fruit_triggered_70 := false, fruit_triggered_170 := false,
    pacman := some { y := 5, x := 4, dy := 0, dx := -1, next_dy := 0, next_dx := 0 },
    ghosts := [{ y := 5, x := 4, dy := 0, dx := 1, frightened := true }],
    fruit := none, pellets := {⟨5, 3⟩}, power_pills := ∅,
    initial_pellets := {⟨5, 3⟩}, initial_power_pills := ∅,
    initial_fruit := none, warp_left := none, warp_right := none,
    pacman_start := some ⟨5, 3⟩, ghost_starts := [⟨5, 3⟩] }

/-- Corridor game on the brink of the extra-life threshold, with a single
frightened adversary adjacent to the player. -/
def gC : Game :=
  { gA with score := 9900,
            ghosts := [{ y := 1, x := 2, dy := 0, dx := 0, frightened := true }],
            ghost_starts := [⟨1, 2⟩] }

/-- Corridor game with the player moving right, one cell away from the
pellet at (1,3). -/
def gW : Game :=
  { gA with pacman := some { y := 1, x := 2, dy := 0, dx := 1, next_dy := 0, next_dx := 0 } }

/-- A small full source grid exercising every marker kind. -/
def srcB : List (List Char) :=
  ["#######".toList,
   "#c.o n#".toList,
   "#<. >@#".toList,
   "#######".toList]

/-! ### Derived predicates used by the invariant claims -/

/-- The static world data — geometry, warp endpoints, recorded starts —
that a tick never changes. -/
def StaticFrame (g g' : Game) : Prop :=
  g'.original_map = g.original_map ∧ g'.height = g.height ∧ g'.width = g.width ∧
  g'.warp_left = g.warp_left ∧ g'.warp_right = g.warp_right ∧
  g'.pacman_start = g.pacman_start ∧ g'.ghost_starts = g.ghost_starts

/-- The fields untouched by the adversary-movement and collision code:
the static world data plus the collectible state. -/
def GhostFrame (g g' : Game) : Prop :=
  StaticFrame g g' ∧
  g'.pellets = g.pellets ∧ g'.power_pills = g.power_pills ∧
  g'.pellets_remaining = g.pellets_remaining

/-- The pellet-count bookkeeping invariant of the spec. -/
def Inv (g : Game) : Prop :=
  g.pellets_remaining = (g.pellets.card : Int) + (g.power_pills.card : Int)

/-- Propositional version of `ValidPositions`: every agent position,
recorded start and warp endpoint is a legal cell. -/
def ValidProp (g : Game) : Prop :=
  (∀ p, g.pacman = some p → is_valid_move g p.y p.x = true) ∧
  (∀ gh ∈ g.ghosts, is_valid_move g gh.y gh.x = true) ∧
  (∀ s, g.pacman_start = some s → is_valid_move g s.y s.x = true) ∧
  (∀ s ∈ g.ghost_starts, is_valid_move g s.y s.x = true) ∧
  (∀ w, g.warp_left = some w → is_valid_move g w.y w.x = true) ∧
  (∀ w, g.warp_right = some w → is_valid_move g w.y w.x = true)

/-- The grid held by the game is rectangular with the recorded
dimensions, as `load_map` guarantees by padding. -/
def MapShape (g : Game) : Prop :=
  g.original_map.length = g.height ∧
  ∀ i, i < g.original_map.length → (g.original_map.getD i []).length = g.width

/-- A recorded position during parsing: in bounds, and its cell has been
blanked to a space. -/
def recOk (g : Game) (p : Point) : Prop :=
  (0 ≤ p.y ∧ p.y < (g.height : Int) ∧ 0 ≤ p.x ∧ p.x < (g.width : Int)) ∧
  cellAt g.original_map p.y p.x = ' '

/-- Invariant carried through the `parse_map` fold: every recorded agent
position, start and warp endpoint is an in-bounds, blanked cell. -/
def ParseInv (g : Game) : Prop :=
  (∀ p, g.pacman = some p → recOk g ⟨p.y, p.x⟩) ∧
  (∀ gh ∈ g.ghosts, recOk g ⟨gh.y, gh.x⟩) ∧
  (∀ s, g.pacman_start = some s → recOk g s) ∧
  (∀ s ∈ g.ghost_starts, recOk g s) ∧
  (∀ w, g.warp_left = some w → recOk g w) ∧
  (∀ w, g.warp_right = some w → recOk g w)

/-- The coordinate of a grid cell, as a `Point`. -/
def cellPt (yxc : Int × Int × Char) : Point := ⟨yxc.1, yxc.2.1⟩

/-- Invariant carried through the `parse_map` fold for the collectible
sets: pellets and power pills are disjoint, the recorded bonus and warp
cells are not collectible, and nothing recorded so far reappears among
the coordinates still to be processed (`L`). -/
def CollectSafe (g : Game) (L : List Point) : Prop :=
  Disjoint g.pellets g.power_pills ∧
  (∀ p ∈ g.pellets, p ∉ L) ∧
  (∀ p ∈ g.power_pills, p ∉ L) ∧
  (∀ f, g.fruit = some f → (⟨f.y, f.x⟩ : Point) ∉ g.pellets ∧
    (⟨f.y, f.x⟩ : Point) ∉ g.power_pills ∧ (⟨f.y, f.x⟩ : Point) ∉ L) ∧
  (∀ w, g.warp_left = some w → w ∉ g.pellets ∧ w ∉ g.power_pills ∧ w ∉ L) ∧
  (∀ w, g.warp_right = some w → w ∉ g.pellets ∧ w ∉ g.power_pills ∧ w ∉ L)

/-- All agent positions, recorded start positions and warp endpoints sit
on legal (in-bounds, non-wall) cells. -/
def ValidPositions (g : Game) : Bool :=
  g.pacman.all (fun p => is_valid_move g p.y p.x) &&
  g.ghosts.all (fun gh => is_valid_move g gh.y gh.x) &&
  g.pacman_start.all (fun s => is_valid_move g s.y s.x) &&
  g.ghost_starts.all (fun s => is_valid_move g s.y s.x) &&
  g.warp_left.all (fun w => is_valid_move g w.y w.x) &&
  g.warp_right.all (fun w => is_valid_move g w.y w.x)

/-! ### Characterization helper lemmas -/

/-- `check_extra_life` touches only `lives` and `extra_life_awarded`. -/
theorem check_extra_life_char (g : Game) :
    ∃ lv aw, check_extra_life g = { g with lives := lv, extra_life_awarded := aw } := by
  unfold check_extra_life
  split
  · exact ⟨_, _, rfl⟩
  · exact ⟨g.lives, g.extra_life_awarded, rfl⟩

/-- `spawn_fruit` touches only `fruit_active` and `fruit_spawn_time`. -/
theorem spawn_fruit_char (t : ℚ) (g : Game) :
    ∃ fa fs, spawn_fruit t g = { g with fruit_active := fa, fruit_spawn_time := fs } := by
  unfold spawn_fruit
  split
  · exact ⟨_, _, rfl⟩
  · exact ⟨g.fruit_active, g.fruit_spawn_time, rfl⟩

/-- `fruit_trigger_check` touches only the fruit trigger state. -/
theorem fruit_trigger_check_char (t : ℚ) (g : Game) :
    ∃ fa fs b70 b170, fruit_trigger_check t g =
      { g with fruit_active := fa, fruit_spawn_time := fs,
               fruit_triggered_70 := b70, fruit_triggered_170 := b170 } := by
  unfold fruit_trigger_check
  split
  · obtain ⟨fa, fs, h⟩ := spawn_fruit_char t g
    exact ⟨fa, fs, true, g.fruit_triggered_170, by rw [h]⟩
  · split
    · obtain ⟨fa, fs, h⟩ := spawn_fruit_char t g
      exact ⟨fa, fs, g.fruit_triggered_70, true, by rw [h]⟩
    · exact ⟨g.fruit_active, g.fruit_spawn_time, g.fruit_triggered_70,
        g.fruit_triggered_170, rfl⟩

/-- `update_fruit` touches only `fruit_active`. -/
theorem update_fruit_char (t : ℚ) (g : Game) :
    ∃ fa, update_fruit t g = { g with fruit_active := fa } := by
  unfold update_fruit
  split
  · exact ⟨_, rfl⟩
  · exact ⟨g.fruit_active, rfl⟩

/-- `reset_positions` touches only the player, the ghosts and the
power-mode timer. -/
theorem reset_positions_char (g : Game) :
    ∃ pc gs, reset_positions g = { g with pacman := pc, ghosts := gs, power_mode_time := 0 } := by
  unfold reset_positions
  cases hp : g.pacman with
  | none => exact ⟨_, _, rfl⟩
  | some p =>
    cases hs : g.pacman_start with
    | none => exact ⟨_, _, rfl⟩
    | some s => exact ⟨_, _, rfl⟩

/-- `handle_collision` touches only score, lives, game over flag, the
agents and the power-mode timer. -/
theorem handle_collision_char (g : Game) (i : Nat) :
    ∃ sc lv go pc gs pm, handle_collision g i =
      { g with score := sc, lives := lv, game_over := go,
               pacman := pc, ghosts := gs, power_mode_time := pm } := by
  unfold handle_collision
  cases hg : g.ghosts.get? i with
  | none => exact ⟨_, _, _, _, _, _, rfl⟩
  | some gh =>
    dsimp only
    split
    · exact ⟨_, _, _, _, _, _, rfl⟩
    · split
      · split
        · exact ⟨_, _, _, _, _, _, rfl⟩
        · obtain ⟨pc, gs, h⟩ := reset_positions_char { g with lives := g.lives - 1 }
          refine ⟨g.score, g.lives - 1, g.game_over, pc, gs, 0, ?_⟩
          rw [h]
      · exact ⟨_, _, _, _, _, _, rfl⟩

/-- Consuming a frightened ghost: 200 points and the ghost respawns at its
recorded start with velocity and frightened flag cleared; nothing else
changes. -/
theorem handle_collision_frightened_eq (g : Game) (i : Nat) (gh : Ghost) (s : Point)
    (hg : g.ghosts.get? i = some gh) (hf : gh.frightened = true)
    (hs : g.ghost_starts.get? i = some s) :
    handle_collision g i =
      { g with score := g.score + 200,
               ghosts := g.ghosts.set i
                 { y := s.y, x := s.x, dy := 0, dx := 0, frightened := false } } := by
  unfold handle_collision
  rw [hg]
  dsimp only
  rw [hs, if_pos hf]

/-- A non-frightened hit with more than one life left: decrement lives and
reset positions. -/
theorem handle_collision_nonfatal (g : Game) (i : Nat) (gh : Ghost)
    (hg : g.ghosts.get? i = some gh) (hf : gh.frightened = false) (hl : 1 < g.lives) :
    handle_collision g i = reset_positions { g with lives := g.lives - 1 } := by
  unfold handle_collision
  rw [hg]
  dsimp only
  rw [if_neg (by simp [hf]), if_pos (by omega : 0 < g.lives),
    if_neg (by omega : ¬ (g.lives - 1 = 0))]

/-- A non-frightened hit on the last life: lives hits zero and the game is
over; no reset happens. -/
theorem handle_collision_fatal (g : Game) (i : Nat) (gh : Ghost)
    (hg : g.ghosts.get? i = some gh) (hf : gh.frightened = false) (hl : g.lives = 1) :
    handle_collision g i = { g with lives := 0, game_over := true } := by
  unfold handle_collision
  rw [hg]
  dsimp only
  rw [if_neg (by simp [hf]), if_pos (by omega : 0 < g.lives),
    if_pos (by omega : g.lives - 1 = 0)]
  rw [hl]

/-- After `reset_positions` the player sits at its recorded start with all
velocity components cleared. -/
theorem reset_positions_pacman (g : Game) (p : PacMan) (s : Point)
    (hp : g.pacman = some p) (hs : g.pacman_start = some s) :
    (reset_positions g).pacman =
      some { y := s.y, x := s.x, dy := 0, dx := 0, next_dy := 0, next_dx := 0 } := by
  unfold reset_positions
  rw [hp, hs]

/-- After `reset_positions` the ghost at index `i` sits at its recorded
start, stationary and not frightened. -/
theorem reset_positions_ghost (g : Game) (i : Nat) (gh : Ghost) (s : Point)
    (hg : g.ghosts.get? i = some gh) (hs : g.ghost_starts.get? i = some s) :
    (reset_positions g).ghosts.get? i =
      some { y := s.y, x := s.x, dy := 0, dx := 0, frightened := false } := by
  have hg' : g.ghosts[i]? = some gh := by rw [← List.get?_eq_getElem?]; exact hg
  have hs' : g.ghost_starts[i]? = some s := by rw [← List.get?_eq_getElem?]; exact hs
  unfold reset_positions
  cases hp : g.pacman with
  | none =>
    dsimp only
    simp only [List.get?_eq_getElem?, List.getElem?_map, List.getElem?_enum, hg',
      Option.map_some']
    rw [hs']
  | some p =>
    cases hps : g.pacman_start with
    | none =>
      dsimp only
      simp only [List.get?_eq_getElem?, List.getElem?_map, List.getElem?_enum, hg',
        Option.map_some']
      rw [hs']
    | some s0 =>
      dsimp only
      simp only [List.get?_eq_getElem?, List.getElem?_map, List.getElem?_enum, hg',
        Option.map_some']
      rw [hs']

/-- Everything `next_level` does to the state, with the position resets
and the fruit restore abstracted into existentials. -/
theorem next_level_char (g : Game) : ∃ pc gs fr,
    next_level g =
      { g with
        level := g.level + 1, won := false, power_mode_time := 0,
        fruit_spawn_time := 0, fruit_active := false, dots_eaten := 0,
        fruit_triggered_70 := false, fruit_triggered_170 := false,
        pellets := g.initial_pellets, power_pills := g.initial_power_pills,
        pellets_remaining := (g.initial_pellets.card : Int) + (g.initial_power_pills.card : Int),
        fruit := fr, pacman := pc, ghosts := gs,
        speed := max (8 / 100 : ℚ) (g.speed - 1 / 100) } := by
  unfold next_level
  dsimp only
  cases hif : g.initial_fruit with
  | none =>
    dsimp only
    obtain ⟨pc, gs, hr⟩ := reset_positions_char
      { g with
        level := g.level + 1, won := false, power_mode_time := 0,
        fruit_spawn_time := 0, fruit_active := false, dots_eaten := 0,
        fruit_triggered_70 := false, fruit_triggered_170 := false,
        pellets := g.initial_pellets, power_pills := g.initial_power_pills,
        pellets_remaining := (g.initial_pellets.card : Int) + (g.initial_power_pills.card : Int),
        initial_fruit := none }
    exact ⟨pc, gs, g.fruit, by rw [hr]⟩
  | some f =>
    dsimp only
    obtain ⟨pc, gs, hr⟩ := reset_positions_char
      { g with
        level := g.level + 1, won := false, power_mode_time := 0,
        fruit_spawn_time := 0, fruit_active := false, dots_eaten := 0,
        fruit_triggered_70 := false, fruit_triggered_170 := false,
        pellets := g.initial_pellets, power_pills := g.initial_power_pills,
        pellets_remaining := (g.initial_pellets.card : Int) + (g.initial_power_pills.card : Int),
        initial_fruit := some f, fruit := some f }
    exact ⟨pc, gs, some f, by rw [hr]⟩

/-- Everything `reset_game` does to the state, with the position resets
and the fruit restore abstracted into existentials. -/
theorem reset_game_char (g : Game) : ∃ pc gs fr,
    reset_game g =
      { g with
        score := 0, lives := 3, game_over := false, won := false,
        power_mode_time := 0, level := 1, extra_life_awarded := false,
        fruit_spawn_time := 0, fruit_active := false, dots_eaten := 0,
        fruit_triggered_70 := false, fruit_triggered_170 := false,
        pellets := g.initial_pellets, power_pills := g.initial_power_pills,
        pellets_remaining := (g.initial_pellets.card : Int) + (g.initial_power_pills.card : Int),
        fruit := fr, pacman := pc, ghosts := gs, speed := 15 / 100 } := by
  unfold reset_game
  dsimp only
  cases hif : g.initial_fruit with
  | none =>
    dsimp only
    obtain ⟨pc, gs, hr⟩ := reset_positions_char
      { g with
        score := 0, lives := 3, game_over := false, won := false,
        power_mode_time := 0, level := 1, extra_life_awarded := false,
        fruit_spawn_time := 0, fruit_active := false, dots_eaten := 0,
        fruit_triggered_70 := false, fruit_triggered_170 := false,
        pellets := g.initial_pellets, power_pills := g.initial_power_pills,
        pellets_remaining := (g.initial_pellets.card : Int) + (g.initial_power_pills.card : Int),
        initial_fruit := none, speed := 15 / 100 }
    exact ⟨pc, gs, g.fruit, by rw [hr]⟩
  | some f =>
    dsimp only
    obtain ⟨pc, gs, hr⟩ := reset_positions_char
      { g with
        score := 0, lives := 3, game_over := false, won := false,
        power_mode_time := 0, level := 1, extra_life_awarded := false,
        fruit_spawn_time := 0, fruit_active := false, dots_eaten := 0,
        fruit_triggered_70 := false, fruit_triggered_170 := false,
        pellets := g.initial_pellets, power_pills := g.initial_power_pills,
        pellets_remaining := (g.initial_pellets.card : Int) + (g.initial_power_pills.card : Int),
        initial_fruit := some f, fruit := some f, speed := 15 / 100 }
    exact ⟨pc, gs, some f, by rw [hr]⟩

/-! ### Claim theorems -/

/-- C1, counterexample: on the corridor game `gA`, the first adversary's
move onto the player is a non-fatal hit (lives 3 to 2, game not over,
player reset to its start) — yet the second adversary still moves in the
same call to `move_ghosts`, from its reset position (1,3) to (1,2).
This refutes the claim that a non-fatal hit interrupts movement
processing for the remaining adversaries of that tick. -/
theorem C1_counterexample :
    (move_ghosts 0 ⟨[0, 0], []⟩ gA).lives = 2 ∧
    (move_ghosts 0 ⟨[0, 0], []⟩ gA).game_over = false ∧
    (move_ghosts 0 ⟨[0, 0], []⟩ gA).pacman =
      some { y := 1, x := 1, dy := 0, dx := 0, next_dy := 0, next_dx := 0 } ∧
    (move_ghosts 0 ⟨[0, 0], []⟩ gA).ghosts.get? 1 =
      some { y := 1, x := 2, dy := 0, dx := -1, frightened := false } := by
  refine ⟨?_, ?_, ?_, ?_⟩ <;> decide

/-- C1, amended: a non-frightened collision decrements lives; at zero
lives the game is over and the per-tick ghost loop stops (the early
return fires exactly when `game_over` is set after a collision);
otherwise player and all adversaries are reset to their recorded starts
with velocities, frightened flags and the power-mode timer cleared, and
the loop continues with the remaining adversaries (they do still move
that tick). -/
theorem C1_nonfrightened_hit :
    (∀ g i gh, g.ghosts.get? i = some gh → gh.frightened = false → g.lives = 1 →
       handle_collision g i = { g with lives := 0, game_over := true }) ∧
    (∀ g i gh, g.ghosts.get? i = some gh → gh.frightened = false → 1 < g.lives →
       handle_collision g i = reset_positions { g with lives := g.lives - 1 }) ∧
    (∀ g, (reset_positions g).power_mode_time = 0) ∧
    (∀ g p s, g.pacman = some p → g.pacman_start = some s →
       (reset_positions g).pacman =
         some { y := s.y, x := s.x, dy := 0, dx := 0, next_dy := 0, next_dx := 0 }) ∧
    (∀ g i gh s, g.ghosts.get? i = some gh → g.ghost_starts.get? i = some s →
       (reset_positions g).ghosts.get? i =
         some { y := s.y, x := s.x, dy := 0, dx := 0, frightened := false }) ∧
    (∀ r g i rest, (move_one_ghost r g i).2.2 = true →
       move_ghosts_loop r g (i :: rest) = (move_one_ghost r g i).1) ∧
    (∀ r g i rest, (move_one_ghost r g i).2.2 = false →
       move_ghosts_loop r g (i :: rest) =
         move_ghosts_loop (move_one_ghost r g i).2.1 (move_one_ghost r g i).1 rest) ∧
    (∀ r g i, (move_one_ghost r g i).2.2 = true → (move_one_ghost r g i).1.game_over = true) := by
  refine ⟨handle_collision_fatal, handle_collision_nonfatal, ?_, reset_positions_pacman, ?_, ?_, ?_, ?_⟩
  · intro g
    obtain ⟨pc, gs, h⟩ := reset_positions_char g
    rw [h]
  · intro g i gh s hg hs
    exact reset_positions_ghost g i gh s hg hs
  · intro r g i rest h
    simp only [move_ghosts_loop, h, if_true]
  · intro r g i rest h
    simp only [move_ghosts_loop, h, if_false, Bool.false_eq_true]
  · intro r g i
    unfold move_one_ghost
    cases hg : g.ghosts.get? i with
    | none => intro h; simp at h
    | some gh =>
      dsimp only
      repeat' split
      all_goals intro h
      all_goals simp_all

/-- C1 witness: the non-fatal branch applied to the corridor game. -/
theorem C1_witness :
    handle_collision gA 0 = reset_positions { gA with lives := gA.lives - 1 } :=
  C1_nonfrightened_hit.2.1 gA 0 { y := 1, x := 2, dy := 0, dx := 0, frightened := false }
    rfl rfl (by decide)

/-- C2: a same-tick swap of adjacent cells between player and adversary is
detected as a collision.  First, in general: whenever the player's
previous cell (reconstructed from its current velocity, as the source
does) is the adversary's current cell and the adversary's previous cell
is the player's current cell, `check_ghost_collision_with_crossing`
returns true.  Second, the spec's concrete instance: player moved
(5,5)->(5,4) while the adversary moves (5,4)->(5,5); running
`move_ghosts` on `gB` registers the collision (the frightened adversary
is consumed: +200 points, respawned at its start). -/
theorem C2_crossing_collision :
    (∀ (g : Game) (p : PacMan) (gh : Ghost) (oy ox : Int),
      g.pacman = some p →
      p.y - p.dy = gh.y → p.x - p.dx = gh.x → oy = p.y → ox = p.x →
      check_ghost_collision_with_crossing g gh oy ox = true) ∧
    (move_ghosts 0 ⟨[], []⟩ gB).score = gB.score + 200 ∧
    (move_ghosts 0 ⟨[], []⟩ gB).ghosts.get? 0 =
      some { y := 5, x := 3, dy := 0, dx := 0, frightened := false } := by
  refine ⟨?_, by decide, by decide⟩
  intro g p gh oy ox hp h1 h2 h3 h4
  unfold check_ghost_collision_with_crossing
  rw [hp]
  dsimp only
  split
  · rfl
  · simp [h1, h2, h3, h4]

/-- C2 witness: the general crossing rule applied to the concrete swap of
(5,4) and (5,5). -/
theorem C2_witness :
    check_ghost_collision_with_crossing gB
      { y := 5, x := 5, dy := 0, dx := 1, frightened := true } 5 4 = true :=
  C2_crossing_collision.1 gB
    { y := 5, x := 4, dy := 0, dx := -1, next_dy := 0, next_dx := 0 }
    { y := 5, x := 5, dy := 0, dx := 1, frightened := true } 5 4
    rfl (by decide) (by decide) rfl rfl

/-- C5: resolving a collision against a frightened adversary awards 200
points and resets exactly that adversary to its recorded start with
velocity and frightened flag cleared; lives, the game-over flag and all
other adversaries are untouched. -/
theorem C5_frightened_collision (g : Game) (i : Nat) (gh : Ghost) (s : Point)
    (hg : g.ghosts.get? i = some gh) (hf : gh.frightened = true)
    (hs : g.ghost_starts.get? i = some s) :
    handle_collision g i =
      { g with score := g.score + 200,
               ghosts := g.ghosts.set i
                 { y := s.y, x := s.x, dy := 0, dx := 0, frightened := false } } ∧
    (handle_collision g i).lives = g.lives ∧
    (handle_collision g i).game_over = g.game_over ∧
    ∀ j, j ≠ i → (handle_collision g i).ghosts.get? j = g.ghosts.get? j := by
  have h := handle_collision_frightened_eq g i gh s hg hf hs
  refine ⟨h, by rw [h], by rw [h], ?_⟩
  intro j hj
  rw [h]
  show (g.ghosts.set i _).get? j = g.ghosts.get? j
  rw [List.get?_eq_getElem?, List.get?_eq_getElem?]
  exact List.getElem?_set_ne (fun e => hj e.symm)

/-- C5 witness: the frightened adversary of `gB` is consumed at its
current cell. -/
theorem C5_witness :
    handle_collision gB 0 =
      { gB with score := gB.score + 200,
                ghosts := gB.ghosts.set 0
                  { y := 5, x := 3, dy := 0, dx := 0, frightened := false } } :=
  (C5_frightened_collision gB 0
    { y := 5, x := 4, dy := 0, dx := 1, frightened := true } ⟨5, 3⟩ rfl rfl rfl).1

/-- C6, counterexample: in `gC` the score is 9900 and the tick's only
scoring event is eating a frightened adversary (+200).  The score ends at
10100, at or above the 10000 threshold, yet lives are unchanged and the
extra-life flag is still unset — `handle_collision` never calls the
extra-life check, contradicting the claim for the eaten-adversary case. -/
theorem C6_counterexample :
    (tick 0 ⟨[0], []⟩ gC).score = 10100 ∧
    10000 ≤ (tick 0 ⟨[0], []⟩ gC).score ∧
    gC.score < 10000 ∧
    (tick 0 ⟨[0], []⟩ gC).lives = gC.lives ∧
    (tick 0 ⟨[0], []⟩ gC).extra_life_awarded = false := by
  refine ⟨?_, ?_, ?_, ?_, ?_⟩ <;> decide

/-- C6, amended: the extra life is granted exactly once per game, at the
first collectible pickup (pellet, power pill or bonus item — the call
sites of `check_extra_life`) where the score is at least 10000; a
threshold crossing caused by eating a frightened adversary grants
nothing at that moment; the one-shot flag survives level advance and is
cleared only by a full game reset. -/
theorem C6_extra_life :
    (∀ g, g.extra_life_awarded = false → 10000 ≤ g.score →
       check_extra_life g = { g with lives := g.lives + 1, extra_life_awarded := true }) ∧
    (∀ g, g.extra_life_awarded = true → check_extra_life g = g) ∧
    (∀ g, g.score < 10000 → check_extra_life g = g) ∧
    (∀ g i gh, g.ghosts.get? i = some gh → gh.frightened = true →
       (handle_collision g i).lives = g.lives ∧
       (handle_collision g i).extra_life_awarded = g.extra_life_awarded) ∧
    (∀ g, (next_level g).extra_life_awarded = g.extra_life_awarded) ∧
    (∀ g, (reset_game g).extra_life_awarded = false) := by
  refine ⟨?_, ?_, ?_, ?_, ?_, ?_⟩
  · intro g h1 h2
    unfold check_extra_life
    rw [if_pos ⟨h1, h2⟩]
  · intro g h1
    unfold check_extra_life
    rw [if_neg (by simp [h1])]
  · intro g h1
    unfold check_extra_life
    rw [if_neg (by omega)]
  · intro g i gh hg hf
    unfold handle_collision
    rw [hg]
    dsimp only
    rw [if_pos hf]
    exact ⟨rfl, rfl⟩
  · intro g
    obtain ⟨pc, gs, fr, h⟩ := next_level_char g
    rw [h]
  · intro g
    obtain ⟨pc, gs, fr, h⟩ := reset_game_char g
    rw [h]

/-- C6 witness: the grant fires on a pickup-side check at 10000. -/
theorem C6_witness :
    check_extra_life { gA with score := 10000 } =
      { gA with score := 10000, lives := gA.lives + 1, extra_life_awarded := true } := by
  have h := C6_extra_life.1 { gA with score := 10000 } rfl (by decide)
  rw [h]

/-- C7: an Advance command in the Won state runs `next_level`, which
increments the level by one, restores pellets and power pills from the
immutable initial snapshots, steps the tick interval down by 0.01
clamped at the 0.08 floor, and leaves score and lives unchanged. -/
theorem C7_advance_in_won (g : Game) (h : g.won = true) :
    handle_input g Key.advance = some (next_level g) ∧
    (next_level g).level = g.level + 1 ∧
    (next_level g).pellets = g.initial_pellets ∧
    (next_level g).power_pills = g.initial_power_pills ∧
    (next_level g).speed = max (8 / 100 : ℚ) (g.speed - 1 / 100) ∧
    (8 / 100 : ℚ) ≤ (next_level g).speed ∧
    (next_level g).score = g.score ∧
    (next_level g).lives = g.lives := by
  obtain ⟨pc, gs, fr, hn⟩ := next_level_char g
  refine ⟨?_, ?_, ?_, ?_, ?_, ?_, ?_, ?_⟩
  · unfold handle_input
    rw [if_pos h]
  all_goals rw [hn]
  exact le_max_left _ _

/-- C8: the bonus item activates exactly at the 70 and 170 dots-eaten
thresholds (given the map defined a bonus position), each threshold at
most once per level via its one-shot flag; once spawned it deactivates
when more than 10 time-units have elapsed and stays otherwise; both flags
are cleared (with the item deactivated and the counter zeroed) on level
advance and on full game reset. -/
theorem C8_bonus_item :
    (∀ (t : ℚ) (g : Game), g.dots_eaten = 70 → g.fruit_triggered_70 = false →
       g.initial_fruit.isSome = true →
       fruit_trigger_check t g =
         { g with fruit_active := true, fruit_spawn_time := t, fruit_triggered_70 := true }) ∧
    (∀ (t : ℚ) (g : Game), g.dots_eaten = 170 → g.fruit_triggered_170 = false →
       g.initial_fruit.isSome = true →
       fruit_trigger_check t g =
         { g with fruit_active := true, fruit_spawn_time := t, fruit_triggered_170 := true }) ∧
    (∀ (t : ℚ) (g : Game), g.dots_eaten = 70 → g.fruit_triggered_70 = true →
       fruit_trigger_check t g = g) ∧
    (∀ (t : ℚ) (g : Game), g.dots_eaten = 170 → g.fruit_triggered_170 = true →
       fruit_trigger_check t g = g) ∧
    (∀ (t : ℚ) (g : Game), g.dots_eaten ≠ 70 → g.dots_eaten ≠ 170 →
       fruit_trigger_check t g = g) ∧
    (∀ (t : ℚ) (g : Game), g.fruit_active = true → 10 < t - g.fruit_spawn_time →
       update_fruit t g = { g with fruit_active := false }) ∧
    (∀ (t : ℚ) (g : Game), ¬ 10 < t - g.fruit_spawn_time → update_fruit t g = g) ∧
    (∀ g : Game, (next_level g).fruit_triggered_70 = false ∧
       (next_level g).fruit_triggered_170 = false ∧
       (next_level g).fruit_active = false ∧ (next_level g).dots_eaten = 0) ∧
    (∀ g : Game, (reset_game g).fruit_triggered_70 = false ∧
       (reset_game g).fruit_triggered_170 = false ∧
       (reset_game g).fruit_active = false ∧ (reset_game g).dots_eaten = 0) := by
  refine ⟨?_, ?_, ?_, ?_, ?_, ?_, ?_, ?_, ?_⟩
  · intro t g h70 hf70 hif
    unfold fruit_trigger_check spawn_fruit
    rw [if_pos ⟨h70, hf70⟩, if_pos hif]
  · intro t g h170 hf170 hif
    unfold fruit_trigger_check spawn_fruit
    rw [if_neg (by omega : ¬ (g.dots_eaten = 70 ∧ g.fruit_triggered_70 = false)),
      if_pos ⟨h170, hf170⟩, if_pos hif]
  · intro t g h70 hf70
    unfold fruit_trigger_check
    rw [if_neg (by simp [hf70]), if_neg (by omega)]
  · intro t g h170 hf170
    unfold fruit_trigger_check
    rw [if_neg (by omega), if_neg (by simp [hf170])]
  · intro t g h70 h170
    unfold fruit_trigger_check
    rw [if_neg (by simp [h70]), if_neg (by simp [h170])]
  · intro t g ha ht
    unfold update_fruit
    rw [if_pos ⟨ha, ht⟩]
  · intro t g ht
    unfold update_fruit
    rw [if_neg (by simp [ht])]
  · intro g
    obtain ⟨pc, gs, fr, h⟩ := next_level_char g
    rw [h]
    exact ⟨rfl, rfl, rfl, rfl⟩
  · intro g
    obtain ⟨pc, gs, fr, h⟩ := reset_game_char g
    rw [h]
    exact ⟨rfl, rfl, rfl, rfl⟩

/-- C8 witness: the 70-threshold fires on a game with a bonus position. -/
theorem C8_witness :
    fruit_trigger_check 3 { gA with dots_eaten := 70, initial_fruit := some ⟨1, 2⟩ } =
      { gA with dots_eaten := 70, initial_fruit := some ⟨1, 2⟩,
                fruit_active := true, fruit_spawn_time := 3, fruit_triggered_70 := true } := by
  have h := C8_bonus_item.1 3 { gA with dots_eaten := 70, initial_fruit := some ⟨1, 2⟩ }
    rfl rfl rfl
  rw [h]

/-- C9: a missing or malformed maze source yields an empty 0x0 world with
no agents and no collectibles; on it a full tick is the identity (so no
core tick operation faults and `won` never spuriously becomes true) — but
a direction-key input faults (the source dereferences the absent player),
modelled by `handle_input` returning `none`; the other inputs are safe. -/
theorem C9_empty_world (t : ℚ) (r : Rng) :
    (new_game none).height = 0 ∧
    (new_game none).width = 0 ∧
    (new_game none).pacman = none ∧
    (new_game none).ghosts = [] ∧
    (new_game none).pellets = ∅ ∧
    (new_game none).power_pills = ∅ ∧
    (new_game none).pellets_remaining = 0 ∧
    (new_game none).won = false ∧
    tick t r (new_game none) = new_game none ∧
    handle_input (new_game none) Key.up = none ∧
    handle_input (new_game none) Key.quit = some (new_game none) ∧
    handle_input (new_game none) Key.noKey = some (new_game none) := by
  have hpac : (new_game none).pacman = none := rfl
  have hgh : (new_game none).ghosts = [] := rfl
  have hpm : (new_game none).power_mode_time = 0 := rfl
  have hfa : (new_game none).fruit_active = false := rfl
  have hE : new_game none = init_game [] := rfl
  have htick : tick t r (new_game none) = new_game none := by
    rw [hE]
    simp [tick, move_pacman, move_ghosts, update_fruit, move_ghosts_loop,
      check_collisions, init_game]
  exact ⟨rfl, rfl, rfl, rfl, rfl, rfl, rfl, rfl, htick, rfl, rfl, rfl⟩

/-- C7 witness: the advance command on the won corridor game. -/
theorem C7_witness :
    handle_input { gA with won := true } Key.advance =
      some (next_level { gA with won := true }) ∧
    (next_level { gA with won := true }).level = { gA with won := true }.level + 1 ∧
    (next_level { gA with won := true }).pellets = { gA with won := true }.initial_pellets ∧
    (next_level { gA with won := true }).power_pills = { gA with won := true }.initial_power_pills ∧
    (next_level { gA with won := true }).speed =
      max (8 / 100 : ℚ) ({ gA with won := true }.speed - 1 / 100) ∧
    (8 / 100 : ℚ) ≤ (next_level { gA with won := true }).speed ∧
    (next_level { gA with won := true }).score = { gA with won := true }.score ∧
    (next_level { gA with won := true }).lives = { gA with won := true }.lives :=
  C7_advance_in_won { gA with won := true } rfl


/-! ### Field-preservation simp lemmas -/

@[simp] theorem check_extra_life_keeps_original_map (g : Game) :
    (check_extra_life g).original_map = g.original_map := by
  obtain ⟨a, b, h⟩ := check_extra_life_char g; rw [h]

@[simp] theorem check_extra_life_keeps_height (g : Game) :
    (check_extra_life g).height = g.height := by
  obtain ⟨a, b, h⟩ := check_extra_life_char g; rw [h]

@[simp] theorem check_extra_life_keeps_width (g : Game) :
    (check_extra_life g).width = g.width := by
  obtain ⟨a, b, h⟩ := check_extra_life_char g; rw [h]

@[simp] theorem check_extra_life_keeps_score (g : Game) :
    (check_extra_life g).score = g.score := by
  obtain ⟨a, b, h⟩ := check_extra_life_char g; rw [h]

@[simp] theorem check_extra_life_keeps_game_over (g : Game) :
    (check_extra_life g).game_over = g.game_over := by
  obtain ⟨a, b, h⟩ := check_extra_life_char g; rw [h]

@[simp] theorem check_extra_life_keeps_won (g : Game) :
    (check_extra_life g).won = g.won := by
  obtain ⟨a, b, h⟩ := check_extra_life_char g; rw [h]

@[simp] theorem check_extra_life_keeps_power_mode_time (g : Game) :
    (check_extra_life g).power_mode_time = g.power_mode_time := by
  obtain ⟨a, b, h⟩ := check_extra_life_char g; rw [h]

@[simp] theorem check_extra_life_keeps_pellets_remaining (g : Game) :
    (check_extra_life g).pellets_remaining = g.pellets_remaining := by
  obtain ⟨a, b, h⟩ := check_extra_life_char g; rw [h]

@[simp] theorem check_extra_life_keeps_speed (g : Game) :
    (check_extra_life g).speed = g.speed := by
  obtain ⟨a, b, h⟩ := check_extra_life_char g; rw [h]

@[simp] theorem check_extra_life_keeps_level (g : Game) :
    (check_extra_life g).level = g.level := by
  obtain ⟨a, b, h⟩ := check_extra_life_char g; rw [h]

@[simp] theorem check_extra_life_keeps_fruit_spawn_time (g : Game) :
    (check_extra_life g).fruit_spawn_time = g.fruit_spawn_time := by
  obtain ⟨a, b, h⟩ := check_extra_life_char g; rw [h]

@[simp] theorem check_extra_life_keeps_fruit_active (g : Game) :
    (check_extra_life g).fruit_active = g.fruit_active := by
  obtain ⟨a, b, h⟩ := check_extra_life_char g; rw [h]

@[simp] theorem check_extra_life_keeps_dots_eaten (g : Game) :
    (check_extra_life g).dots_eaten = g.dots_eaten := by
  obtain ⟨a, b, h⟩ := check_extra_life_char g; rw [h]

@[simp] theorem check_extra_life_keeps_fruit_triggered_70 (g : Game) :
    (check_extra_life g).fruit_triggered_70 = g.fruit_triggered_70 := by
  obtain ⟨a, b, h⟩ := check_extra_life_char g; rw [h]

@[simp] theorem check_extra_life_keeps_fruit_triggered_170 (g : Game) :
    (check_extra_life g).fruit_triggered_170 = g.fruit_triggered_170 := by
  obtain ⟨a, b, h⟩ := check_extra_life_char g; rw [h]

@[simp] theorem check_extra_life_keeps_pacman (g : Game) :
    (check_extra_life g).pacman = g.pacman := by
  obtain ⟨a, b, h⟩ := check_extra_life_char g; rw [h]

@[simp] theorem check_extra_life_keeps_ghosts (g : Game) :
    (check_extra_life g).ghosts = g.ghosts := by
  obtain ⟨a, b, h⟩ := check_extra_life_char g; rw [h]

@[simp] theorem check_extra_life_keeps_fruit (g : Game) :
    (check_extra_life g).fruit = g.fruit := by
  obtain ⟨a, b, h⟩ := check_extra_life_char g; rw [h]

@[simp] theorem check_extra_life_keeps_pellets (g : Game) :
    (check_extra_life g).pellets = g.pellets := by
  obtain ⟨a, b, h⟩ := check_extra_life_char g; rw [h]

@[simp] theorem check_extra_life_keeps_power_pills (g : Game) :
    (check_extra_life g).power_pills = g.power_pills := by
  obtain ⟨a, b, h⟩ := check_extra_life_char g; rw [h]

@[simp] theorem check_extra_life_keeps_initial_pellets (g : Game) :
    (check_extra_life g).initial_pellets = g.initial_pellets := by
  obtain ⟨a, b, h⟩ := check_extra_life_char g; rw [h]

@[simp] theorem check_extra_life_keeps_initial_power_pills (g : Game) :
    (check_extra_life g).initial_power_pills = g.initial_power_pills := by
  obtain ⟨a, b, h⟩ := check_extra_life_char g; rw [h]

@[simp] theorem check_extra_life_keeps_initial_fruit (g : Game) :
    (check_extra_life g).initial_fruit = g.initial_fruit := by
  obtain ⟨a, b, h⟩ := check_extra_life_char g; rw [h]

@[simp] theorem check_extra_life_keeps_warp_left (g : Game) :
    (check_extra_life g).warp_left = g.warp_left := by
  obtain ⟨a, b, h⟩ := check_extra_life_char g; rw [h]

@[simp] theorem check_extra_life_keeps_warp_right (g : Game) :
    (check_extra_life g).warp_right = g.warp_right := by
  obtain ⟨a, b, h⟩ := check_extra_life_char g; rw [h]

@[simp] theorem check_extra_life_keeps_pacman_start (g : Game) :
    (check_extra_life g).pacman_start = g.pacman_start := by
  obtain ⟨a, b, h⟩ := check_extra_life_char g; rw [h]

@[simp] theorem check_extra_life_keeps_ghost_starts (g : Game) :
    (check_extra_life g).ghost_starts = g.ghost_starts := by
  obtain ⟨a, b, h⟩ := check_extra_life_char g; rw [h]

@[simp] theorem fruit_trigger_check_keeps_original_map (t : ℚ) (g : Game) :
    (fruit_trigger_check t g).original_map = g.original_map := by
  obtain ⟨a, b, c, d, h⟩ := fruit_trigger_check_char t g; rw [h]

@[simp] theorem fruit_trigger_check_keeps_height (t : ℚ) (g : Game) :
    (fruit_trigger_check t g).height = g.height := by
  obtain ⟨a, b, c, d, h⟩ := fruit_trigger_check_char t g; rw [h]

@[simp] theorem fruit_trigger_check_keeps_width (t : ℚ) (g : Game) :
    (fruit_trigger_check t g).width = g.width := by
  obtain ⟨a, b, c, d, h⟩ := fruit_trigger_check_char t g; rw [h]

@[simp] theorem fruit_trigger_check_keeps_score (t : ℚ) (g : Game) :
    (fruit_trigger_check t g).score = g.score := by
  obtain ⟨a, b, c, d, h⟩ := fruit_trigger_check_char t g; rw [h]

@[simp] theorem fruit_trigger_check_keeps_lives (t : ℚ) (g : Game) :
    (fruit_trigger_check t g).lives = g.lives := by
  obtain ⟨a, b, c, d, h⟩ := fruit_trigger_check_char t g; rw [h]

@[simp] theorem fruit_trigger_check_keeps_game_over (t : ℚ) (g : Game) :
    (fruit_trigger_check t g).game_over = g.game_over := by
  obtain ⟨a, b, c, d, h⟩ := fruit_trigger_check_char t g; rw [h]

@[simp] theorem fruit_trigger_check_keeps_won (t : ℚ) (g : Game) :
    (fruit_trigger_check t g).won = g.won := by
  obtain ⟨a, b, c, d, h⟩ := fruit_trigger_check_char t g; rw [h]

@[simp] theorem fruit_trigger_check_keeps_power_mode_time (t : ℚ) (g : Game) :
    (fruit_trigger_check t g).power_mode_time = g.power_mode_time := by
  obtain ⟨a, b, c, d, h⟩ := fruit_trigger_check_char t g; rw [h]

@[simp] theorem fruit_trigger_check_keeps_pellets_remaining (t : ℚ) (g : Game) :
    (fruit_trigger_check t g).pellets_remaining = g.pellets_remaining := by
  obtain ⟨a, b, c, d, h⟩ := fruit_trigger_check_char t g; rw [h]

@[simp] theorem fruit_trigger_check_keeps_speed (t : ℚ) (g : Game) :
    (fruit_trigger_check t g).speed = g.speed := by
  obtain ⟨a, b, c, d, h⟩ := fruit_trigger_check_char t g; rw [h]

@[simp] theorem fruit_trigger_check_keeps_level (t : ℚ) (g : Game) :
    (fruit_trigger_check t g).level = g.level := by
  obtain ⟨a, b, c, d, h⟩ := fruit_trigger_check_char t g; rw [h]

@[simp] theorem fruit_trigger_check_keeps_extra_life_awarded (t : ℚ) (g : Game) :
    (fruit_trigger_check t g).extra_life_awarded = g.extra_life_awarded := by
  obtain ⟨a, b, c, d, h⟩ := fruit_trigger_check_char t g; rw [h]

@[simp] theorem fruit_trigger_check_keeps_dots_eaten (t : ℚ) (g : Game) :
    (fruit_trigger_check t g).dots_eaten = g.dots_eaten := by
  obtain ⟨a, b, c, d, h⟩ := fruit_trigger_check_char t g; rw [h]

@[simp] theorem fruit_trigger_check_keeps_pacman (t : ℚ) (g : Game) :
    (fruit_trigger_check t g).pacman = g.pacman := by
  obtain ⟨a, b, c, d, h⟩ := fruit_trigger_check_char t g; rw [h]

@[simp] theorem fruit_trigger_check_keeps_ghosts (t : ℚ) (g : Game) :
    (fruit_trigger_check t g).ghosts = g.ghosts := by
  obtain ⟨a, b, c, d, h⟩ := fruit_trigger_check_char t g; rw [h]

@[simp] theorem fruit_trigger_check_keeps_fruit (t : ℚ) (g : Game) :
    (fruit_trigger_check t g).fruit = g.fruit := by
  obtain ⟨a, b, c, d, h⟩ := fruit_trigger_check_char t g; rw [h]

@[simp] theorem fruit_trigger_check_keeps_pellets (t : ℚ) (g : Game) :
    (fruit_trigger_check t g).pellets = g.pellets := by
  obtain ⟨a, b, c, d, h⟩ := fruit_trigger_check_char t g; rw [h]

@[simp] theorem fruit_trigger_check_keeps_power_pills (t : ℚ) (g : Game) :
    (fruit_trigger_check t g).power_pills = g.power_pills := by
  obtain ⟨a, b, c, d, h⟩ := fruit_trigger_check_char t g; rw [h]

@[simp] theorem fruit_trigger_check_keeps_initial_pellets (t : ℚ) (g : Game) :
    (fruit_trigger_check t g).initial_pellets = g.initial_pellets := by
  obtain ⟨a, b, c, d, h⟩ := fruit_trigger_check_char t g; rw [h]

@[simp] theorem fruit_trigger_check_keeps_initial_power_pills (t : ℚ) (g : Game) :
    (fruit_trigger_check t g).initial_power_pills = g.initial_power_pills := by
  obtain ⟨a, b, c, d, h⟩ := fruit_trigger_check_char t g; rw [h]

@[simp] theorem fruit_trigger_check_keeps_initial_fruit (t : ℚ) (g : Game) :
    (fruit_trigger_check t g).initial_fruit = g.initial_fruit := by
  obtain ⟨a, b, c, d, h⟩ := fruit_trigger_check_char t g; rw [h]

@[simp] theorem fruit_trigger_check_keeps_warp_left (t : ℚ) (g : Game) :
    (fruit_trigger_check t g).warp_left = g.warp_left := by
  obtain ⟨a, b, c, d, h⟩ := fruit_trigger_check_char t g; rw [h]

@[simp] theorem fruit_trigger_check_keeps_warp_right (t : ℚ) (g : Game) :
    (fruit_trigger_check t g).warp_right = g.warp_right := by
  obtain ⟨a, b, c, d, h⟩ := fruit_trigger_check_char t g; rw [h]

@[simp] theorem fruit_trigger_check_keeps_pacman_start (t : ℚ) (g : Game) :
    (fruit_trigger_check t g).pacman_start = g.pacman_start := by
  obtain ⟨a, b, c, d, h⟩ := fruit_trigger_check_char t g; rw [h]

@[simp] theorem fruit_trigger_check_keeps_ghost_starts (t : ℚ) (g : Game) :
    (fruit_trigger_check t g).ghost_starts = g.ghost_starts := by
  obtain ⟨a, b, c, d, h⟩ := fruit_trigger_check_char t g; rw [h]

@[simp] theorem update_fruit_keeps_original_map (t : ℚ) (g : Game) :
    (update_fruit t g).original_map = g.original_map := by
  obtain ⟨a, h⟩ := update_fruit_char t g; rw [h]

@[simp] theorem update_fruit_keeps_height (t : ℚ) (g : Game) :
    (update_fruit t g).height = g.height := by
  obtain ⟨a, h⟩ := update_fruit_char t g; rw [h]

@[simp] theorem update_fruit_keeps_width (t : ℚ) (g : Game) :
    (update_fruit t g).width = g.width := by
  obtain ⟨a, h⟩ := update_fruit_char t g; rw [h]

@[simp] theorem update_fruit_keeps_score (t : ℚ) (g : Game) :
    (update_fruit t g).score = g.score := by
  obtain ⟨a, h⟩ := update_fruit_char t g; rw [h]

@[simp] theorem update_fruit_keeps_lives (t : ℚ) (g : Game) :
    (update_fruit t g).lives = g.lives := by
  obtain ⟨a, h⟩ := update_fruit_char t g; rw [h]

@[simp] theorem update_fruit_keeps_game_over (t : ℚ) (g : Game) :
    (update_fruit t g).game_over = g.game_over := by
  obtain ⟨a, h⟩ := update_fruit_char t g; rw [h]

@[simp] theorem update_fruit_keeps_won (t : ℚ) (g : Game) :
    (update_fruit t g).won = g.won := by
  obtain ⟨a, h⟩ := update_fruit_char t g; rw [h]

@[simp] theorem update_fruit_keeps_power_mode_time (t : ℚ) (g : Game) :
    (update_fruit t g).power_mode_time = g.power_mode_time := by
  obtain ⟨a, h⟩ := update_fruit_char t g; rw [h]

@[simp] theorem update_fruit_keeps_pellets_remaining (t : ℚ) (g : Game) :
    (update_fruit t g).pellets_remaining = g.pellets_remaining := by
  obtain ⟨a, h⟩ := update_fruit_char t g; rw [h]

@[simp] theorem update_fruit_keeps_speed (t : ℚ) (g : Game) :
    (update_fruit t g).speed = g.speed := by
  obtain ⟨a, h⟩ := update_fruit_char t g; rw [h]

@[simp] theorem update_fruit_keeps_level (t : ℚ) (g : Game) :
    (update_fruit t g).level = g.level := by
  obtain ⟨a, h⟩ := update_fruit_char t g; rw [h]

@[simp] theorem update_fruit_keeps_extra_life_awarded (t : ℚ) (g : Game) :
    (update_fruit t g).extra_life_awarded = g.extra_life_awarded := by
  obtain ⟨a, h⟩ := update_fruit_char t g; rw [h]

@[simp] theorem update_fruit_keeps_fruit_spawn_time (t : ℚ) (g : Game) :
    (update_fruit t g).fruit_spawn_time = g.fruit_spawn_time := by
  obtain ⟨a, h⟩ := update_fruit_char t g; rw [h]

@[simp] theorem update_fruit_keeps_dots_eaten (t : ℚ) (g : Game) :
    (update_fruit t g).dots_eaten = g.dots_eaten := by
  obtain ⟨a, h⟩ := update_fruit_char t g; rw [h]

@[simp] theorem update_fruit_keeps_fruit_triggered_70 (t : ℚ) (g : Game) :
    (update_fruit t g).fruit_triggered_70 = g.fruit_triggered_70 := by
  obtain ⟨a, h⟩ := update_fruit_char t g; rw [h]

@[simp] theorem update_fruit_keeps_fruit_triggered_170 (t : ℚ) (g : Game) :
    (update_fruit t g).fruit_triggered_170 = g.fruit_triggered_170 := by
  obtain ⟨a, h⟩ := update_fruit_char t g; rw [h]

@[simp] theorem update_fruit_keeps_pacman (t : ℚ) (g : Game) :
    (update_fruit t g).pacman = g.pacman := by
  obtain ⟨a, h⟩ := update_fruit_char t g; rw [h]

@[simp] theorem update_fruit_keeps_ghosts (t : ℚ) (g : Game) :
    (update_fruit t g).ghosts = g.ghosts := by
  obtain ⟨a, h⟩ := update_fruit_char t g; rw [h]

@[simp] theorem update_fruit_keeps_fruit (t : ℚ) (g : Game) :
    (update_fruit t g).fruit = g.fruit := by
  obtain ⟨a, h⟩ := update_fruit_char t g; rw [h]

@[simp] theorem update_fruit_keeps_pellets (t : ℚ) (g : Game) :
    (update_fruit t g).pellets = g.pellets := by
  obtain ⟨a, h⟩ := update_fruit_char t g; rw [h]

@[simp] theorem update_fruit_keeps_power_pills (t : ℚ) (g : Game) :
    (update_fruit t g).power_pills = g.power_pills := by
  obtain ⟨a, h⟩ := update_fruit_char t g; rw [h]

@[simp] theorem update_fruit_keeps_initial_pellets (t : ℚ) (g : Game) :
    (update_fruit t g).initial_pellets = g.initial_pellets := by
  obtain ⟨a, h⟩ := update_fruit_char t g; rw [h]

@[simp] theorem update_fruit_keeps_initial_power_pills (t : ℚ) (g : Game) :
    (update_fruit t g).initial_power_pills = g.initial_power_pills := by
  obtain ⟨a, h⟩ := update_fruit_char t g; rw [h]

@[simp] theorem update_fruit_keeps_initial_fruit (t : ℚ) (g : Game) :
    (update_fruit t g).initial_fruit = g.initial_fruit := by
  obtain ⟨a, h⟩ := update_fruit_char t g; rw [h]

@[simp] theorem update_fruit_keeps_warp_left (t : ℚ) (g : Game) :
    (update_fruit t g).warp_left = g.warp_left := by
  obtain ⟨a, h⟩ := update_fruit_char t g; rw [h]

@[simp] theorem update_fruit_keeps_warp_right (t : ℚ) (g : Game) :
    (update_fruit t g).warp_right = g.warp_right := by
  obtain ⟨a, h⟩ := update_fruit_char t g; rw [h]

@[simp] theorem update_fruit_keeps_pacman_start (t : ℚ) (g : Game) :
    (update_fruit t g).pacman_start = g.pacman_start := by
  obtain ⟨a, h⟩ := update_fruit_char t g; rw [h]

@[simp] theorem update_fruit_keeps_ghost_starts (t : ℚ) (g : Game) :
    (update_fruit t g).ghost_starts = g.ghost_starts := by
  obtain ⟨a, h⟩ := update_fruit_char t g; rw [h]

@[simp] theorem reset_positions_keeps_original_map (g : Game) :
    (reset_positions g).original_map = g.original_map := by
  obtain ⟨a, b, h⟩ := reset_positions_char g; rw [h]

@[simp] theorem reset_positions_keeps_height (g : Game) :
    (reset_positions g).height = g.height := by
  obtain ⟨a, b, h⟩ := reset_positions_char g; rw [h]

@[simp] theorem reset_positions_keeps_width (g : Game) :
    (reset_positions g).width = g.width := by
  obtain ⟨a, b, h⟩ := reset_positions_char g; rw [h]

@[simp] theorem reset_positions_keeps_score (g : Game) :
    (reset_positions g).score = g.score := by
  obtain ⟨a, b, h⟩ := reset_positions_char g; rw [h]

@[simp] theorem reset_positions_keeps_lives (g : Game) :
    (reset_positions g).lives = g.lives := by
  obtain ⟨a, b, h⟩ := reset_positions_char g; rw [h]

@[simp] theorem reset_positions_keeps_game_over (g : Game) :
    (reset_positions g).game_over = g.game_over := by
  obtain ⟨a, b, h⟩ := reset_positions_char g; rw [h]

@[simp] theorem reset_positions_keeps_won (g : Game) :
    (reset_positions g).won = g.won := by
  obtain ⟨a, b, h⟩ := reset_positions_char g; rw [h]

@[simp] theorem reset_positions_keeps_pellets_remaining (g : Game) :
    (reset_positions g).pellets_remaining = g.pellets_remaining := by
  obtain ⟨a, b, h⟩ := reset_positions_char g; rw [h]

@[simp] theorem reset_positions_keeps_speed (g : Game) :
    (reset_positions g).speed = g.speed := by
  obtain ⟨a, b, h⟩ := reset_positions_char g; rw [h]

@[simp] theorem reset_positions_keeps_level (g : Game) :
    (reset_positions g).level = g.level := by
  obtain ⟨a, b, h⟩ := reset_positions_char g; rw [h]

@[simp] theorem reset_positions_keeps_extra_life_awarded (g : Game) :
    (reset_positions g).extra_life_awarded = g.extra_life_awarded := by
  obtain ⟨a, b, h⟩ := reset_positions_char g; rw [h]

@[simp] theorem reset_positions_keeps_fruit_spawn_time (g : Game) :
    (reset_positions g).fruit_spawn_time = g.fruit_spawn_time := by
  obtain ⟨a, b, h⟩ := reset_positions_char g; rw [h]

@[simp] theorem reset_positions_keeps_fruit_active (g : Game) :
    (reset_positions g).fruit_active = g.fruit_active := by
  obtain ⟨a, b, h⟩ := reset_positions_char g; rw [h]

@[simp] theorem reset_positions_keeps_dots_eaten (g : Game) :
    (reset_positions g).dots_eaten = g.dots_eaten := by
  obtain ⟨a, b, h⟩ := reset_positions_char g; rw [h]

@[simp] theorem reset_positions_keeps_fruit_triggered_70 (g : Game) :
    (reset_positions g).fruit_triggered_70 = g.fruit_triggered_70 := by
  obtain ⟨a, b, h⟩ := reset_positions_char g; rw [h]

@[simp] theorem reset_positions_keeps_fruit_triggered_170 (g : Game) :
    (reset_positions g).fruit_triggered_170 = g.fruit_triggered_170 := by
  obtain ⟨a, b, h⟩ := reset_positions_char g; rw [h]

@[simp] theorem reset_positions_keeps_fruit (g : Game) :
    (reset_positions g).fruit = g.fruit := by
  obtain ⟨a, b, h⟩ := reset_positions_char g; rw [h]

@[simp] theorem reset_positions_keeps_pellets (g : Game) :
    (reset_positions g).pellets = g.pellets := by
  obtain ⟨a, b, h⟩ := reset_positions_char g; rw [h]

@[simp] theorem reset_positions_keeps_power_pills (g : Game) :
    (reset_positions g).power_pills = g.power_pills := by
  obtain ⟨a, b, h⟩ := reset_positions_char g; rw [h]

@[simp] theorem reset_positions_keeps_initial_pellets (g : Game) :
    (reset_positions g).initial_pellets = g.initial_pellets := by
  obtain ⟨a, b, h⟩ := reset_positions_char g; rw [h]

@[simp] theorem reset_positions_keeps_initial_power_pills (g : Game) :
    (reset_positions g).initial_power_pills = g.initial_power_pills := by
  obtain ⟨a, b, h⟩ := reset_positions_char g; rw [h]

@[simp] theorem reset_positions_keeps_initial_fruit (g : Game) :
    (reset_positions g).initial_fruit = g.initial_fruit := by
  obtain ⟨a, b, h⟩ := reset_positions_char g; rw [h]

@[simp] theorem reset_positions_keeps_warp_left (g : Game) :
    (reset_positions g).warp_left = g.warp_left := by
  obtain ⟨a, b, h⟩ := reset_positions_char g; rw [h]

@[simp] theorem reset_positions_keeps_warp_right (g : Game) :
    (reset_positions g).warp_right = g.warp_right := by
  obtain ⟨a, b, h⟩ := reset_positions_char g; rw [h]

@[simp] theorem reset_positions_keeps_pacman_start (g : Game) :
    (reset_positions g).pacman_start = g.pacman_start := by
  obtain ⟨a, b, h⟩ := reset_positions_char g; rw [h]

@[simp] theorem reset_positions_keeps_ghost_starts (g : Game) :
    (reset_positions g).ghost_starts = g.ghost_starts := by
  obtain ⟨a, b, h⟩ := reset_positions_char g; rw [h]

@[simp] theorem handle_collision_keeps_original_map (g : Game) (i : Nat) :
    (handle_collision g i).original_map = g.original_map := by
  obtain ⟨a, b, c, d, e, f, h⟩ := handle_collision_char g i; rw [h]

@[simp] theorem handle_collision_keeps_height (g : Game) (i : Nat) :
    (handle_collision g i).height = g.height := by
  obtain ⟨a, b, c, d, e, f, h⟩ := handle_collision_char g i; rw [h]

@[simp] theorem handle_collision_keeps_width (g : Game) (i : Nat) :
    (handle_collision g i).width = g.width := by
  obtain ⟨a, b, c, d, e, f, h⟩ := handle_collision_char g i; rw [h]

@[simp] theorem handle_collision_keeps_won (g : Game) (i : Nat) :
    (handle_collision g i).won = g.won := by
  obtain ⟨a, b, c, d, e, f, h⟩ := handle_collision_char g i; rw [h]

@[simp] theorem handle_collision_keeps_pellets_remaining (g : Game) (i : Nat) :
    (handle_collision g i).pellets_remaining = g.pellets_remaining := by
  obtain ⟨a, b, c, d, e, f, h⟩ := handle_collision_char g i; rw [h]

@[simp] theorem handle_collision_keeps_speed (g : Game) (i : Nat) :
    (handle_collision g i).speed = g.speed := by
  obtain ⟨a, b, c, d, e, f, h⟩ := handle_collision_char g i; rw [h]

@[simp] theorem handle_collision_keeps_level (g : Game) (i : Nat) :
    (handle_collision g i).level = g.level := by
  obtain ⟨a, b, c, d, e, f, h⟩ := handle_collision_char g i; rw [h]

@[simp] theorem handle_collision_keeps_extra_life_awarded (g : Game) (i : Nat) :
    (handle_collision g i).extra_life_awarded = g.extra_life_awarded := by
  obtain ⟨a, b, c, d, e, f, h⟩ := handle_collision_char g i; rw [h]

@[simp] theorem handle_collision_keeps_fruit_spawn_time (g : Game) (i : Nat) :
    (handle_collision g i).fruit_spawn_time = g.fruit_spawn_time := by
  obtain ⟨a, b, c, d, e, f, h⟩ := handle_collision_char g i; rw [h]

@[simp] theorem handle_collision_keeps_fruit_active (g : Game) (i : Nat) :
    (handle_collision g i).fruit_active = g.fruit_active := by
  obtain ⟨a, b, c, d, e, f, h⟩ := handle_collision_char g i; rw [h]

@[simp] theorem handle_collision_keeps_dots_eaten (g : Game) (i : Nat) :
    (handle_collision g i).dots_eaten = g.dots_eaten := by
  obtain ⟨a, b, c, d, e, f, h⟩ := handle_collision_char g i; rw [h]

@[simp] theorem handle_collision_keeps_fruit_triggered_70 (g : Game) (i : Nat) :
    (handle_collision g i).fruit_triggered_70 = g.fruit_triggered_70 := by
  obtain ⟨a, b, c, d, e, f, h⟩ := handle_collision_char g i; rw [h]

@[simp] theorem handle_collision_keeps_fruit_triggered_170 (g : Game) (i : Nat) :
    (handle_collision g i).fruit_triggered_170 = g.fruit_triggered_170 := by
  obtain ⟨a, b, c, d, e, f, h⟩ := handle_collision_char g i; rw [h]

@[simp] theorem handle_collision_keeps_fruit (g : Game) (i : Nat) :
    (handle_collision g i).fruit = g.fruit := by
  obtain ⟨a, b, c, d, e, f, h⟩ := handle_collision_char g i; rw [h]

@[simp] theorem handle_collision_keeps_pellets (g : Game) (i : Nat) :
    (handle_collision g i).pellets = g.pellets := by
  obtain ⟨a, b, c, d, e, f, h⟩ := handle_collision_char g i; rw [h]

@[simp] theorem handle_collision_keeps_power_pills (g : Game) (i : Nat) :
    (handle_collision g i).power_pills = g.power_pills := by
  obtain ⟨a, b, c, d, e, f, h⟩ := handle_collision_char g i; rw [h]

@[simp] theorem handle_collision_keeps_initial_pellets (g : Game) (i : Nat) :
    (handle_collision g i).initial_pellets = g.initial_pellets := by
  obtain ⟨a, b, c, d, e, f, h⟩ := handle_collision_char g i; rw [h]

@[simp] theorem handle_collision_keeps_initial_power_pills (g : Game) (i : Nat) :
    (handle_collision g i).initial_power_pills = g.initial_power_pills := by
  obtain ⟨a, b, c, d, e, f, h⟩ := handle_collision_char g i; rw [h]

@[simp] theorem handle_collision_keeps_initial_fruit (g : Game) (i : Nat) :
    (handle_collision g i).initial_fruit = g.initial_fruit := by
  obtain ⟨a, b, c, d, e, f, h⟩ := handle_collision_char g i; rw [h]

@[simp] theorem handle_collision_keeps_warp_left (g : Game) (i : Nat) :
    (handle_collision g i).warp_left = g.warp_left := by
  obtain ⟨a, b, c, d, e, f, h⟩ := handle_collision_char g i; rw [h]

@[simp] theorem handle_collision_keeps_warp_right (g : Game) (i : Nat) :
    (handle_collision g i).warp_right = g.warp_right := by
  obtain ⟨a, b, c, d, e, f, h⟩ := handle_collision_char g i; rw [h]

@[simp] theorem handle_collision_keeps_pacman_start (g : Game) (i : Nat) :
    (handle_collision g i).pacman_start = g.pacman_start := by
  obtain ⟨a, b, c, d, e, f, h⟩ := handle_collision_char g i; rw [h]

@[simp] theorem handle_collision_keeps_ghost_starts (g : Game) (i : Nat) :
    (handle_collision g i).ghost_starts = g.ghost_starts := by
  obtain ⟨a, b, c, d, e, f, h⟩ := handle_collision_char g i; rw [h]


/-! ### Frame lemmas for the tick pipeline -/

theorem staticFrame_refl (g : Game) : StaticFrame g g :=
  ⟨rfl, rfl, rfl, rfl, rfl, rfl, rfl⟩

theorem staticFrame_trans {g g' g'' : Game}
    (h1 : StaticFrame g g') (h2 : StaticFrame g' g'') : StaticFrame g g'' :=
  ⟨h2.1.trans h1.1, h2.2.1.trans h1.2.1, h2.2.2.1.trans h1.2.2.1,
   h2.2.2.2.1.trans h1.2.2.2.1, h2.2.2.2.2.1.trans h1.2.2.2.2.1,
   h2.2.2.2.2.2.1.trans h1.2.2.2.2.2.1, h2.2.2.2.2.2.2.trans h1.2.2.2.2.2.2⟩

theorem ghostFrame_refl (g : Game) : GhostFrame g g :=
  ⟨staticFrame_refl g, rfl, rfl, rfl⟩

theorem ghostFrame_trans {g g' g'' : Game}
    (h1 : GhostFrame g g') (h2 : GhostFrame g' g'') : GhostFrame g g'' :=
  ⟨staticFrame_trans h1.1 h2.1, h2.2.1.trans h1.2.1,
   h2.2.2.1.trans h1.2.2.1, h2.2.2.2.trans h1.2.2.2⟩

theorem ghostFrame_reset_positions (g : Game) : GhostFrame g (reset_positions g) := by
  refine ⟨⟨?_, ?_, ?_, ?_, ?_, ?_, ?_⟩, ?_, ?_, ?_⟩ <;> simp

theorem ghostFrame_handle_collision (g : Game) (i : Nat) :
    GhostFrame g (handle_collision g i) := by
  refine ⟨⟨?_, ?_, ?_, ?_, ?_, ?_, ?_⟩, ?_, ?_, ?_⟩ <;> simp

theorem ghostFrame_update_fruit (t : ℚ) (g : Game) :
    GhostFrame g (update_fruit t g) := by
  refine ⟨⟨?_, ?_, ?_, ?_, ?_, ?_, ?_⟩, ?_, ?_, ?_⟩ <;> simp

theorem ghostFrame_move_one_ghost (r : Rng) (g : Game) (i : Nat) :
    GhostFrame g (move_one_ghost r g i).1 := by
  unfold move_one_ghost
  cases hg : g.ghosts.get? i with
  | none => exact ghostFrame_refl g
  | some gh =>
    dsimp only
    repeat' split
    all_goals dsimp only
    all_goals first
      | exact ghostFrame_refl _
      | exact ⟨⟨rfl, rfl, rfl, rfl, rfl, rfl, rfl⟩, rfl, rfl, rfl⟩
      | exact ghostFrame_trans ⟨⟨rfl, rfl, rfl, rfl, rfl, rfl, rfl⟩, rfl, rfl, rfl⟩
          (ghostFrame_handle_collision _ _)

theorem ghostFrame_move_ghosts_loop (is : List Nat) :
    ∀ (r : Rng) (g : Game), GhostFrame g (move_ghosts_loop r g is) := by
  induction is with
  | nil => intro r g; exact ghostFrame_refl g
  | cons i rest ih =>
    intro r g
    simp only [move_ghosts_loop]
    split
    · exact ghostFrame_move_one_ghost r g i
    · exact ghostFrame_trans (ghostFrame_move_one_ghost r g i) (ih _ _)

theorem ghostFrame_move_ghosts (t : ℚ) (r : Rng) (g : Game) :
    GhostFrame g (move_ghosts t r g) := by
  unfold move_ghosts
  dsimp only
  refine ghostFrame_trans ?_ (ghostFrame_trans (ghostFrame_update_fruit t _)
    (ghostFrame_move_ghosts_loop _ _ _))
  split
  · exact ⟨⟨rfl, rfl, rfl, rfl, rfl, rfl, rfl⟩, rfl, rfl, rfl⟩
  · exact ghostFrame_refl g

theorem ghostFrame_check_collisions (g : Game) : GhostFrame g (check_collisions g) := by
  unfold check_collisions
  cases g.pacman with
  | none => exact ghostFrame_refl g
  | some p =>
    dsimp only
    cases collide_index p g.ghosts with
    | none => exact ghostFrame_refl g
    | some i => exact ghostFrame_handle_collision g i

theorem staticFrame_pellet_step (t : ℚ) (pos : Point) (g : Game) :
    StaticFrame g (pellet_step t pos g) := by
  unfold pellet_step
  split
  · exact ⟨by simp, by simp, by simp, by simp, by simp, by simp, by simp⟩
  · exact staticFrame_refl g

theorem staticFrame_pill_step (t : ℚ) (pos : Point) (g : Game) :
    StaticFrame g (pill_step t pos g) := by
  unfold pill_step
  split
  · exact ⟨by simp, by simp, by simp, by simp, by simp, by simp, by simp⟩
  · exact staticFrame_refl g

theorem staticFrame_fruit_step (pos : Point) (g : Game) :
    StaticFrame g (fruit_step pos g) := by
  unfold fruit_step
  split
  · split
    · exact ⟨by simp, by simp, by simp, by simp, by simp, by simp, by simp⟩
    · exact staticFrame_refl g
  · exact staticFrame_refl g

theorem staticFrame_win_step (g : Game) : StaticFrame g (win_step g) := by
  unfold win_step
  split
  · exact ⟨rfl, rfl, rfl, rfl, rfl, rfl, rfl⟩
  · exact staticFrame_refl g

theorem staticFrame_collect (t : ℚ) (g : Game) : StaticFrame g (collect t g) := by
  unfold collect
  cases g.pacman with
  | none => exact staticFrame_refl g
  | some p =>
    exact staticFrame_trans (staticFrame_pellet_step t _ g)
      (staticFrame_trans (staticFrame_pill_step t _ _)
        (staticFrame_trans (staticFrame_fruit_step _ _) (staticFrame_win_step _)))

theorem staticFrame_move_pacman (t : ℚ) (g : Game) :
    StaticFrame g (move_pacman t g) := by
  unfold move_pacman
  cases g.pacman with
  | none => exact staticFrame_refl g
  | some p0 =>
    dsimp only
    split
    · split
      · exact ⟨rfl, rfl, rfl, rfl, rfl, rfl, rfl⟩
      · exact staticFrame_trans ⟨rfl, rfl, rfl, rfl, rfl, rfl, rfl⟩ (staticFrame_collect t _)
    · exact staticFrame_trans ⟨rfl, rfl, rfl, rfl, rfl, rfl, rfl⟩ (staticFrame_collect t _)

theorem staticFrame_tick (t : ℚ) (r : Rng) (g : Game) : StaticFrame g (tick t r g) := by
  unfold tick
  exact staticFrame_trans (staticFrame_move_pacman t g)
    (staticFrame_trans (ghostFrame_move_ghosts t r _).1 (ghostFrame_check_collisions _).1)

/-! ### The pellet-count invariant -/

theorem Inv_pellet_step (t : ℚ) (pos : Point) (g : Game) (h : Inv g) :
    Inv (pellet_step t pos g) := by
  unfold pellet_step
  split
  case isTrue hm =>
    unfold Inv at h ⊢
    simp only [fruit_trigger_check_keeps_pellets_remaining,
      check_extra_life_keeps_pellets_remaining, fruit_trigger_check_keeps_pellets,
      check_extra_life_keeps_pellets, fruit_trigger_check_keeps_power_pills,
      check_extra_life_keeps_power_pills]
    rw [Finset.cast_card_erase_of_mem hm, h]
    ring
  case isFalse hm => exact h

theorem Inv_pill_step (t : ℚ) (pos : Point) (g : Game) (h : Inv g) :
    Inv (pill_step t pos g) := by
  unfold pill_step
  split
  case isTrue hm =>
    unfold Inv at h ⊢
    simp only [fruit_trigger_check_keeps_pellets_remaining,
      check_extra_life_keeps_pellets_remaining, fruit_trigger_check_keeps_pellets,
      check_extra_life_keeps_pellets, fruit_trigger_check_keeps_power_pills,
      check_extra_life_keeps_power_pills]
    rw [Finset.cast_card_erase_of_mem hm, h]
    ring
  case isFalse hm => exact h

theorem Inv_fruit_step (pos : Point) (g : Game) (h : Inv g) :
    Inv (fruit_step pos g) := by
  unfold fruit_step
  split
  · split
    · unfold Inv at h ⊢
      simpa using h
    · exact h
  · exact h

theorem Inv_win_step (g : Game) (h : Inv g) : Inv (win_step g) := by
  unfold win_step
  split
  · exact h
  · exact h

theorem Inv_collect (t : ℚ) (g : Game) (h : Inv g) : Inv (collect t g) := by
  unfold collect
  cases g.pacman with
  | none => exact h
  | some p =>
    exact Inv_win_step _ (Inv_fruit_step _ _ (Inv_pill_step t _ _ (Inv_pellet_step t _ _ h)))

theorem Inv_move_pacman (t : ℚ) (g : Game) (h : Inv g) : Inv (move_pacman t g) := by
  unfold move_pacman
  cases g.pacman with
  | none => exact h
  | some p0 =>
    dsimp only
    split
    · split
      · unfold Inv at h ⊢
        simpa using h
      · refine Inv_collect t _ ?_
        unfold Inv at h ⊢
        simpa using h
    · refine Inv_collect t _ ?_
      unfold Inv at h ⊢
      simpa using h

theorem Inv_of_ghostFrame {g g' : Game} (hf : GhostFrame g g') (h : Inv g) : Inv g' := by
  unfold Inv at h ⊢
  rw [hf.2.1, hf.2.2.1, hf.2.2.2]
  exact h

theorem Inv_parse_map (g : Game) : Inv (parse_map g) := by
  unfold parse_map Inv
  dsimp only

theorem Inv_next_level (g : Game) : Inv (next_level g) := by
  obtain ⟨pc, gs, fr, h⟩ := next_level_char g
  rw [h]
  unfold Inv
  dsimp only

theorem Inv_reset_game (g : Game) : Inv (reset_game g) := by
  obtain ⟨pc, gs, fr, h⟩ := reset_game_char g
  rw [h]
  unfold Inv
  dsimp only

/-- C4: `pellets_remaining` equals the number of uncollected pellets plus
power pills: established by map parsing (hence by load, level advance and
full reset, which recompute it) and preserved by every tick. -/
theorem C4_pellets_remaining :
    (∀ src, Inv (new_game src)) ∧
    (∀ g, Inv g → ∀ (t : ℚ) (r : Rng), Inv (tick t r g)) ∧
    (∀ g, Inv (next_level g)) ∧
    (∀ g, Inv (reset_game g)) := by
  refine ⟨?_, ?_, Inv_next_level, Inv_reset_game⟩
  · intro src
    exact Inv_parse_map _
  · intro g h t r
    unfold tick
    exact Inv_of_ghostFrame (ghostFrame_check_collisions _)
      (Inv_of_ghostFrame (ghostFrame_move_ghosts t r _) (Inv_move_pacman t g h))

/-- C4 witness: the invariant holds on the corridor game and survives a
tick with a non-fatal collision. -/
theorem C4_witness : Inv (tick 0 ⟨[0], []⟩ gA) :=
  C4_pellets_remaining.2.1 gA (by unfold Inv; decide) 0 ⟨[0], []⟩


/-! ### Pickup-step lemmas for C3 -/

@[simp] theorem pellet_step_keeps_power_pills (t : ℚ) (pos : Point) (g : Game) :
    (pellet_step t pos g).power_pills = g.power_pills := by
  unfold pellet_step; split <;> simp

@[simp] theorem pellet_step_keeps_pacman (t : ℚ) (pos : Point) (g : Game) :
    (pellet_step t pos g).pacman = g.pacman := by
  unfold pellet_step; split <;> simp

@[simp] theorem pellet_step_keeps_fruit (t : ℚ) (pos : Point) (g : Game) :
    (pellet_step t pos g).fruit = g.fruit := by
  unfold pellet_step; split <;> simp

@[simp] theorem pill_step_keeps_pellets (t : ℚ) (pos : Point) (g : Game) :
    (pill_step t pos g).pellets = g.pellets := by
  unfold pill_step; split <;> simp

@[simp] theorem pill_step_keeps_pacman (t : ℚ) (pos : Point) (g : Game) :
    (pill_step t pos g).pacman = g.pacman := by
  unfold pill_step; split <;> simp

@[simp] theorem pill_step_keeps_fruit (t : ℚ) (pos : Point) (g : Game) :
    (pill_step t pos g).fruit = g.fruit := by
  unfold pill_step; split <;> simp

@[simp] theorem fruit_step_keeps_pellets (pos : Point) (g : Game) :
    (fruit_step pos g).pellets = g.pellets := by
  unfold fruit_step; split <;> [split; skip] <;> simp

@[simp] theorem fruit_step_keeps_power_pills (pos : Point) (g : Game) :
    (fruit_step pos g).power_pills = g.power_pills := by
  unfold fruit_step; split <;> [split; skip] <;> simp

@[simp] theorem fruit_step_keeps_pacman (pos : Point) (g : Game) :
    (fruit_step pos g).pacman = g.pacman := by
  unfold fruit_step; split <;> [split; skip] <;> simp

@[simp] theorem fruit_step_keeps_ghosts (pos : Point) (g : Game) :
    (fruit_step pos g).ghosts = g.ghosts := by
  unfold fruit_step; split <;> [split; skip] <;> simp

@[simp] theorem fruit_step_keeps_power_mode_time (pos : Point) (g : Game) :
    (fruit_step pos g).power_mode_time = g.power_mode_time := by
  unfold fruit_step; split <;> [split; skip] <;> simp

@[simp] theorem win_step_keeps_pellets (g : Game) :
    (win_step g).pellets = g.pellets := by
  unfold win_step; split <;> rfl

@[simp] theorem win_step_keeps_power_pills (g : Game) :
    (win_step g).power_pills = g.power_pills := by
  unfold win_step; split <;> rfl

@[simp] theorem win_step_keeps_pacman (g : Game) :
    (win_step g).pacman = g.pacman := by
  unfold win_step; split <;> rfl

@[simp] theorem win_step_keeps_ghosts (g : Game) :
    (win_step g).ghosts = g.ghosts := by
  unfold win_step; split <;> rfl

@[simp] theorem win_step_keeps_power_mode_time (g : Game) :
    (win_step g).power_mode_time = g.power_mode_time := by
  unfold win_step; split <;> rfl

@[simp] theorem win_step_keeps_score (g : Game) :
    (win_step g).score = g.score := by
  unfold win_step; split <;> rfl

theorem pellet_step_mem (t : ℚ) (pos : Point) (g : Game) (hm : pos ∈ g.pellets) :
    (pellet_step t pos g).pellets = g.pellets.erase pos ∧
    (pellet_step t pos g).score = g.score + 10 := by
  unfold pellet_step
  rw [if_pos hm]
  constructor <;> simp

theorem pellet_step_not_mem (t : ℚ) (pos : Point) (g : Game) (hm : pos ∉ g.pellets) :
    pellet_step t pos g = g := by
  unfold pellet_step
  rw [if_neg hm]

theorem pill_step_mem (t : ℚ) (pos : Point) (g : Game) (hm : pos ∈ g.power_pills) :
    (pill_step t pos g).power_pills = g.power_pills.erase pos ∧
    (pill_step t pos g).score = g.score + 50 ∧
    (pill_step t pos g).power_mode_time = t ∧
    (pill_step t pos g).ghosts = g.ghosts.map (fun gh => { gh with frightened := true }) := by
  unfold pill_step
  rw [if_pos hm]
  refine ⟨?_, ?_, ?_, ?_⟩ <;> simp

theorem pill_step_not_mem (t : ℚ) (pos : Point) (g : Game) (hm : pos ∉ g.power_pills) :
    pill_step t pos g = g := by
  unfold pill_step
  rw [if_neg hm]

theorem fruit_step_not_here (pos : Point) (g : Game)
    (h : ∀ f, g.fruit = some f → ¬ (pos.y = f.y ∧ pos.x = f.x)) :
    fruit_step pos g = g := by
  unfold fruit_step
  cases hf : g.fruit with
  | none => rfl
  | some f =>
    dsimp only
    rw [if_neg ?_]
    rintro ⟨_, h1, h2⟩
    exact h f hf ⟨h1, h2⟩

/-- Conditional effects of the pickup block: at the player's (post-move)
position, a pellet is erased for exactly +10; a power pill is erased for
exactly +50, frightening every ghost and restarting the power timer;
absent collectibles stay untouched. -/
theorem collect_spec (t : ℚ) (g : Game)
    (hdisj : Disjoint g.pellets g.power_pills)
    (hfr : ∀ f, g.fruit = some f →
      (⟨f.y, f.x⟩ : Point) ∉ g.pellets ∧ (⟨f.y, f.x⟩ : Point) ∉ g.power_pills) :
    ∀ p', (collect t g).pacman = some p' →
      ((⟨p'.y, p'.x⟩ : Point) ∈ g.pellets →
         (collect t g).pellets = g.pellets.erase ⟨p'.y, p'.x⟩ ∧
         (collect t g).score = g.score + 10 ∧
         (collect t g).power_pills = g.power_pills) ∧
      ((⟨p'.y, p'.x⟩ : Point) ∈ g.power_pills →
         (collect t g).power_pills = g.power_pills.erase ⟨p'.y, p'.x⟩ ∧
         (collect t g).score = g.score + 50 ∧
         (collect t g).pellets = g.pellets ∧
         (collect t g).power_mode_time = t ∧
         ∀ gh ∈ (collect t g).ghosts, gh.frightened = true) ∧
      ((⟨p'.y, p'.x⟩ : Point) ∉ g.pellets → (collect t g).pellets = g.pellets) ∧
      ((⟨p'.y, p'.x⟩ : Point) ∉ g.power_pills → (collect t g).power_pills = g.power_pills) := by
  intro p' hp'
  unfold collect at hp' ⊢
  cases hp : g.pacman with
  | none =>
    rw [hp] at hp'
    have hp2 : g.pacman = some p' := hp'
    rw [hp] at hp2
    exact Option.noConfusion hp2
  | some p =>
    dsimp only at hp' ⊢
    have hpp : p' = p := by
      simp only [win_step_keeps_pacman, fruit_step_keeps_pacman, pill_step_keeps_pacman,
        pellet_step_keeps_pacman, hp, Option.some.injEq] at hp'
      exact hp'.symm
    subst hpp
    by_cases hm : (⟨p'.y, p'.x⟩ : Point) ∈ g.pellets
    · obtain ⟨hA1, hA2⟩ := pellet_step_mem t ⟨p'.y, p'.x⟩ g hm
      have hmp : (⟨p'.y, p'.x⟩ : Point) ∉ g.power_pills :=
        Finset.disjoint_left.mp hdisj hm
      have hB : pill_step t ⟨p'.y, p'.x⟩ (pellet_step t ⟨p'.y, p'.x⟩ g) =
          pellet_step t ⟨p'.y, p'.x⟩ g := by
        refine pill_step_not_mem t _ _ ?_
        rw [pellet_step_keeps_power_pills]
        exact hmp
      have hC : fruit_step ⟨p'.y, p'.x⟩ (pill_step t ⟨p'.y, p'.x⟩ (pellet_step t ⟨p'.y, p'.x⟩ g)) =
          pill_step t ⟨p'.y, p'.x⟩ (pellet_step t ⟨p'.y, p'.x⟩ g) := by
        refine fruit_step_not_here _ _ ?_
        intro f hf hc
        rw [pill_step_keeps_fruit, pellet_step_keeps_fruit] at hf
        have h1 : p'.y = f.y := hc.1
        have h2 : p'.x = f.x := hc.2
        have hpt : (⟨p'.y, p'.x⟩ : Point) = ⟨f.y, f.x⟩ := by rw [h1, h2]
        exact (hfr f hf).1 (hpt ▸ hm)
      refine ⟨fun _ => ⟨?_, ?_, ?_⟩, fun hmem => absurd hmem hmp, fun hn => absurd hm hn, fun _ => ?_⟩
      · rw [win_step_keeps_pellets, hC, hB, hA1]
      · rw [win_step_keeps_score, hC, hB, hA2]
      · rw [win_step_keeps_power_pills, hC, hB, pellet_step_keeps_power_pills]
      · rw [win_step_keeps_power_pills, hC, hB, pellet_step_keeps_power_pills]
    · have hA : pellet_step t ⟨p'.y, p'.x⟩ g = g := pellet_step_not_mem t _ _ hm
      by_cases hmp : (⟨p'.y, p'.x⟩ : Point) ∈ g.power_pills
      · obtain ⟨hB1, hB2, hB3, hB4⟩ := pill_step_mem t ⟨p'.y, p'.x⟩ g hmp
        have hC : fruit_step ⟨p'.y, p'.x⟩ (pill_step t ⟨p'.y, p'.x⟩ g) =
            pill_step t ⟨p'.y, p'.x⟩ g := by
          refine fruit_step_not_here _ _ ?_
          intro f hf hc
          rw [pill_step_keeps_fruit] at hf
          have h1 : p'.y = f.y := hc.1
          have h2 : p'.x = f.x := hc.2
          have hpt : (⟨p'.y, p'.x⟩ : Point) = ⟨f.y, f.x⟩ := by rw [h1, h2]
          exact (hfr f hf).2 (hpt ▸ hmp)
        refine ⟨fun hmem => absurd hmem hm, fun _ => ⟨?_, ?_, ?_, ?_, ?_⟩,
          fun _ => ?_, fun hn => absurd hmp hn⟩
        · rw [hA, win_step_keeps_power_pills, hC, hB1]
        · rw [hA, win_step_keeps_score, hC, hB2]
        · rw [hA, win_step_keeps_pellets, hC, pill_step_keeps_pellets]
        · rw [hA, win_step_keeps_power_mode_time, hC, hB3]
        · intro gh hgh
          rw [hA, win_step_keeps_ghosts, hC, hB4] at hgh
          obtain ⟨gh0, _, rfl⟩ := List.mem_map.mp hgh
          rfl
        · rw [hA, win_step_keeps_pellets, hC, pill_step_keeps_pellets]
      · have hB : pill_step t ⟨p'.y, p'.x⟩ g = g := pill_step_not_mem t _ _ hmp
        refine ⟨fun hmem => absurd hmem hm, fun hmem => absurd hmem hmp,
          fun _ => ?_, fun _ => ?_⟩
        · rw [hA, hB, win_step_keeps_pellets, fruit_step_keeps_pellets]
        · rw [hA, hB, win_step_keeps_power_pills, fruit_step_keeps_power_pills]


/-- A successful warp lands exactly on one of the two recorded warp
endpoints. -/
theorem warp_target_mem (g : Game) (y x dx : Int) (q : Point)
    (h : warp_target g y x dx = some q) :
    g.warp_left = some q ∨ g.warp_right = some q := by
  unfold warp_target at h
  cases hl : g.warp_left with
  | none => rw [hl] at h; exact Option.noConfusion h
  | some wl =>
    cases hr : g.warp_right with
    | none => rw [hl, hr] at h; exact Option.noConfusion h
    | some wr =>
      rw [hl, hr] at h
      dsimp only at h
      split at h
      · injection h with h1
        right
        exact congrArg some h1
      · split at h
        · injection h with h1
          left
          exact congrArg some h1
        · exact Option.noConfusion h

/-- `move_pacman` either warps the player to a warp endpoint (skipping the
pickup block, as the source returns early) or ends in the pickup block. -/
theorem move_pacman_cases (t : ℚ) (g : Game) (p0 : PacMan) (hp : g.pacman = some p0) :
    (∃ (p1 : PacMan) (q : Point), (g.warp_left = some q ∨ g.warp_right = some q) ∧
       move_pacman t g = { g with pacman := some { p1 with y := q.y, x := q.x } }) ∨
    (∃ p2 : PacMan, (p2 = pacman_step g (apply_intent g p0) ∨ p2 = apply_intent g p0) ∧
       move_pacman t g = collect t { g with pacman := some p2 }) := by
  unfold move_pacman
  rw [hp]
  dsimp only
  split
  · cases hw : warp_target g (apply_intent g p0).y (apply_intent g p0).x
        (apply_intent g p0).dx with
    | some q =>
      left
      exact ⟨apply_intent g p0, q, warp_target_mem _ _ _ _ _ hw, rfl⟩
    | none =>
      right
      exact ⟨pacman_step g (apply_intent g p0), Or.inl rfl, rfl⟩
  · right
    exact ⟨apply_intent g p0, Or.inr rfl, rfl⟩

/-- C3: on every tick — tunnel-warp ticks included — the pickup effects
hold at the player's post-move position: a pellet there is removed (that
exact position) for exactly +10; a power pill there is removed for
exactly +50 with every adversary frightened and the power-mode countdown
restarted at the tick's time; collectibles absent from the post-move
position are untouched.  The hypotheses (pellets and pills disjoint,
bonus and warp cells not collectible) are established by `parse_map`,
which tags each cell exactly once. -/
theorem C3_pickup (t : ℚ) (g : Game)
    (hdisj : Disjoint g.pellets g.power_pills)
    (hfr : ∀ f, g.fruit = some f →
      (⟨f.y, f.x⟩ : Point) ∉ g.pellets ∧ (⟨f.y, f.x⟩ : Point) ∉ g.power_pills)
    (hwl : ∀ w, g.warp_left = some w → w ∉ g.pellets ∧ w ∉ g.power_pills)
    (hwr : ∀ w, g.warp_right = some w → w ∉ g.pellets ∧ w ∉ g.power_pills) :
    ∀ p', (move_pacman t g).pacman = some p' →
      ((⟨p'.y, p'.x⟩ : Point) ∈ g.pellets →
         (move_pacman t g).pellets = g.pellets.erase ⟨p'.y, p'.x⟩ ∧
         (move_pacman t g).score = g.score + 10 ∧
         (move_pacman t g).power_pills = g.power_pills) ∧
      ((⟨p'.y, p'.x⟩ : Point) ∈ g.power_pills →
         (move_pacman t g).power_pills = g.power_pills.erase ⟨p'.y, p'.x⟩ ∧
         (move_pacman t g).score = g.score + 50 ∧
         (move_pacman t g).pellets = g.pellets ∧
         (move_pacman t g).power_mode_time = t ∧
         ∀ gh ∈ (move_pacman t g).ghosts, gh.frightened = true) ∧
      ((⟨p'.y, p'.x⟩ : Point) ∉ g.pellets → (move_pacman t g).pellets = g.pellets) ∧
      ((⟨p'.y, p'.x⟩ : Point) ∉ g.power_pills →
         (move_pacman t g).power_pills = g.power_pills) := by
  intro p' hp'
  cases hp : g.pacman with
  | none =>
    have h1 : move_pacman t g = g := by unfold move_pacman; rw [hp]
    rw [h1, hp] at hp'
    exact Option.noConfusion hp'
  | some p0 =>
    rcases move_pacman_cases t g p0 hp with ⟨p1, q, hq, heq⟩ | ⟨p2, hform, heq⟩
    · rw [heq] at hp' ⊢
      have hp2 : some { p1 with y := q.y, x := q.x } = some p' := hp'
      injection hp2 with hp2
      have hy : p'.y = q.y := by rw [← hp2]
      have hx : p'.x = q.x := by rw [← hp2]
      have hqq : (⟨p'.y, p'.x⟩ : Point) = q := by rw [hy, hx]
      obtain ⟨hq1, hq2⟩ := hq.elim (fun h => hwl q h) (fun h => hwr q h)
      exact ⟨fun hmem => absurd (hqq ▸ hmem) hq1, fun hmem => absurd (hqq ▸ hmem) hq2,
        fun _ => rfl, fun _ => rfl⟩
    · rw [heq] at hp' ⊢
      exact collect_spec t { g with pacman := some p2 } hdisj hfr p' hp'

/-- C3 witness: stepping right onto the pellet at (1,3) removes exactly
that pellet and adds exactly 10. -/
theorem C3_witness :
    (move_pacman 5 gW).pellets = gW.pellets.erase ⟨1, 3⟩ ∧
    (move_pacman 5 gW).score = gW.score + 10 ∧
    (move_pacman 5 gW).power_pills = gW.power_pills :=
  (C3_pickup 5 gW (Finset.disjoint_empty_right _) (fun f hf => Option.noConfusion hf)
    (fun w hw => Option.noConfusion hw) (fun w hw => Option.noConfusion hw)
    { y := 1, x := 3, dy := 0, dx := 1, next_dy := 0, next_dx := 0 } (by decide)).1 (by decide)


/-! ### Position-validity machinery for C10 -/

theorem option_all_iff {α : Type} (p : α → Bool) (o : Option α) :
    o.all p = true ↔ ∀ a, o = some a → p a = true := by
  cases o <;> simp [Option.all]

theorem validPositions_iff (g : Game) : ValidPositions g = true ↔ ValidProp g := by
  unfold ValidPositions ValidProp
  simp only [Bool.and_eq_true, option_all_iff, List.all_eq_true]
  tauto

theorem is_valid_move_frame {g g' : Game} (h : StaticFrame g g') (y x : Int) :
    is_valid_move g' y x = is_valid_move g y x := by
  unfold is_valid_move
  rw [h.1, h.2.1, h.2.2.1]

/-- Rebuild `ValidProp` after an operation: given the static frame and the
validity (w.r.t. the old map) of the new agent positions, the rest
transfers. -/
theorem ValidProp_transfer {g g' : Game} (hf : StaticFrame g g')
    (hpac : ∀ p, g'.pacman = some p → is_valid_move g p.y p.x = true)
    (hgh : ∀ gh ∈ g'.ghosts, is_valid_move g gh.y gh.x = true)
    (hv : ValidProp g) : ValidProp g' := by
  obtain ⟨_, _, h3, h4, h5, h6⟩ := hv
  refine ⟨?_, ?_, ?_, ?_, ?_, ?_⟩
  · intro p hp
    rw [is_valid_move_frame hf]
    exact hpac p hp
  · intro gh hgh2
    rw [is_valid_move_frame hf]
    exact hgh gh hgh2
  · intro s hs
    rw [is_valid_move_frame hf]
    rw [hf.2.2.2.2.2.1] at hs
    exact h3 s hs
  · intro s hs
    rw [is_valid_move_frame hf]
    rw [hf.2.2.2.2.2.2] at hs
    exact h4 s hs
  · intro w hw
    rw [is_valid_move_frame hf]
    rw [hf.2.2.2.1] at hw
    exact h5 w hw
  · intro w hw
    rw [is_valid_move_frame hf]
    rw [hf.2.2.2.2.1] at hw
    exact h6 w hw

theorem apply_intent_pos (g : Game) (p : PacMan) :
    (apply_intent g p).y = p.y ∧ (apply_intent g p).x = p.x := by
  unfold apply_intent
  split <;> exact ⟨rfl, rfl⟩

theorem ghost_init_dir_pos (g : Game) (r : Rng) (gh : Ghost) :
    (ghost_init_dir g r gh).1.y = gh.y ∧ (ghost_init_dir g r gh).1.x = gh.x := by
  unfold ghost_init_dir
  dsimp only
  constructor <;> (repeat' split) <;> rfl

theorem ghost_junction_dir_pos (g : Game) (r : Rng) (gh : Ghost) :
    (ghost_junction_dir g r gh).1.y = gh.y ∧ (ghost_junction_dir g r gh).1.x = gh.x := by
  unfold ghost_junction_dir
  dsimp only
  constructor <;> (repeat' split) <;> rfl

theorem ghost_decide_pos (g : Game) (r : Rng) (gh : Ghost) :
    (ghost_decide g r gh).1.y = gh.y ∧ (ghost_decide g r gh).1.x = gh.x := by
  unfold ghost_decide
  dsimp only
  obtain ⟨h1, h2⟩ := ghost_junction_dir_pos g (ghost_init_dir g r gh).2 (ghost_init_dir g r gh).1
  obtain ⟨h3, h4⟩ := ghost_init_dir_pos g r gh
  exact ⟨h1.trans h3, h2.trans h4⟩

@[simp] theorem pellet_step_keeps_ghosts (t : ℚ) (pos : Point) (g : Game) :
    (pellet_step t pos g).ghosts = g.ghosts := by
  unfold pellet_step
  split <;> simp

theorem pill_step_ghosts_pos (t : ℚ) (pos : Point) (g : Game) :
    ∀ gh ∈ (pill_step t pos g).ghosts, ∃ gh0 ∈ g.ghosts, gh.y = gh0.y ∧ gh.x = gh0.x := by
  unfold pill_step
  split
  · intro gh hgh
    simp only [fruit_trigger_check_keeps_ghosts, check_extra_life_keeps_ghosts,
      List.mem_map] at hgh
    obtain ⟨gh0, h0, rfl⟩ := hgh
    exact ⟨gh0, h0, rfl, rfl⟩
  · intro gh hgh
    exact ⟨gh, hgh, rfl, rfl⟩

theorem collect_keeps_pacman (t : ℚ) (g : Game) : (collect t g).pacman = g.pacman := by
  unfold collect
  cases hp : g.pacman with
  | none => exact hp
  | some p =>
    have h : (win_step (fruit_step ⟨p.y, p.x⟩ (pill_step t ⟨p.y, p.x⟩
        (pellet_step t ⟨p.y, p.x⟩ g)))).pacman = g.pacman := by
      rw [win_step_keeps_pacman, fruit_step_keeps_pacman, pill_step_keeps_pacman,
        pellet_step_keeps_pacman]
    exact h.trans hp

theorem collect_ghosts_pos (t : ℚ) (g : Game) :
    ∀ gh ∈ (collect t g).ghosts, ∃ gh0 ∈ g.ghosts, gh.y = gh0.y ∧ gh.x = gh0.x := by
  unfold collect
  cases hp : g.pacman with
  | none => intro gh hgh; exact ⟨gh, hgh, rfl, rfl⟩
  | some p =>
    intro gh hgh
    have hgh2 : gh ∈ (win_step (fruit_step ⟨p.y, p.x⟩ (pill_step t ⟨p.y, p.x⟩
        (pellet_step t ⟨p.y, p.x⟩ g)))).ghosts := hgh
    rw [win_step_keeps_ghosts, fruit_step_keeps_ghosts] at hgh2
    obtain ⟨gh0, h0, hy, hx⟩ := pill_step_ghosts_pos t _ _ gh hgh2
    rw [pellet_step_keeps_ghosts] at h0
    exact ⟨gh0, h0, hy, hx⟩

theorem ValidProp_collect (t : ℚ) (g : Game) (hv : ValidProp g) :
    ValidProp (collect t g) := by
  refine ValidProp_transfer (staticFrame_collect t g) ?_ ?_ hv
  · intro p hp
    rw [collect_keeps_pacman] at hp
    exact hv.1 p hp
  · intro gh hgh
    obtain ⟨gh0, h0, hy, hx⟩ := collect_ghosts_pos t g gh hgh
    rw [hy, hx]
    exact hv.2.1 gh0 h0

theorem ValidProp_move_pacman (t : ℚ) (g : Game) (hv : ValidProp g) :
    ValidProp (move_pacman t g) := by
  cases hp : g.pacman with
  | none =>
    have h1 : move_pacman t g = g := by unfold move_pacman; rw [hp]
    rw [h1]
    exact hv
  | some p0 =>
    rcases move_pacman_cases t g p0 hp with ⟨p1, q, hq, heq⟩ | ⟨p2, hform, heq⟩
    · rw [heq]
      refine ValidProp_transfer (⟨rfl, rfl, rfl, rfl, rfl, rfl, rfl⟩ : StaticFrame g _) ?_ ?_ hv
      · intro p hp2
        have hp3 : some { p1 with y := q.y, x := q.x } = some p := hp2
        injection hp3 with hp3
        rw [← hp3]
        rcases hq with h | h
        · exact hv.2.2.2.2.1 q h
        · exact hv.2.2.2.2.2 q h
      · intro gh hgh
        exact hv.2.1 gh hgh
    · rw [heq]
      have hv2 : ValidProp { g with pacman := some p2 } := by
        refine ValidProp_transfer (⟨rfl, rfl, rfl, rfl, rfl, rfl, rfl⟩ : StaticFrame g _) ?_ ?_ hv
        · intro p hp2
          have hp3 : some p2 = some p := hp2
          injection hp3 with hp3
          rw [← hp3]
          have hvp1 : is_valid_move g (apply_intent g p0).y (apply_intent g p0).x = true := by
            rw [(apply_intent_pos g p0).1, (apply_intent_pos g p0).2]
            exact hv.1 p0 hp
          rcases hform with rfl | rfl
          · unfold pacman_step
            split
            case isTrue h => exact h
            case isFalse h => exact hvp1
          · exact hvp1
        · intro gh hgh
          exact hv.2.1 gh hgh
      exact ValidProp_collect t _ hv2


/-- Positions appearing in the reset ghost list come from the recorded
starts or from the pre-reset ghosts. -/
theorem reset_map_pos (ghosts : List Ghost) (starts : List Point) :
    ∀ gh ∈ ghosts.enum.map (fun iz =>
      let gh1 :=
        match starts.get? iz.1 with
        | some s => { iz.2 with y := s.y, x := s.x }
        | none => iz.2
      { gh1 with dy := 0, dx := 0, frightened := false }),
      (∃ s ∈ starts, gh.y = s.y ∧ gh.x = s.x) ∨
      (∃ gh0 ∈ ghosts, gh.y = gh0.y ∧ gh.x = gh0.x) := by
  intro gh hgh
  simp only [List.mem_map] at hgh
  obtain ⟨iz, hmem, rfl⟩ := hgh
  have hiz : ghosts.get? iz.1 = some iz.2 := by
    have := List.mem_enum_iff_getElem?.mp hmem
    simpa using this
  cases hs : starts.get? iz.1 with
  | some s =>
    left
    refine ⟨s, List.get?_mem hs, ?_, ?_⟩ <;> rfl
  | none =>
    right
    refine ⟨iz.2, List.get?_mem hiz, ?_, ?_⟩ <;> rfl

theorem ValidProp_reset_positions (g : Game) (hv : ValidProp g) :
    ValidProp (reset_positions g) := by
  refine ValidProp_transfer (ghostFrame_reset_positions g).1 ?_ ?_ hv
  · intro p hp
    cases hgp : g.pacman with
    | none =>
      have hnone : (reset_positions g).pacman = g.pacman := by
        unfold reset_positions
        nth_rewrite 1 [hgp]
        rfl
      rw [hnone, hgp] at hp
      exact Option.noConfusion hp
    | some p0 =>
      cases hgs : g.pacman_start with
      | some s =>
        rw [reset_positions_pacman g p0 s hgp hgs] at hp
        injection hp with hp
        rw [← hp]
        exact hv.2.2.1 s hgs
      | none =>
        have hsame : (reset_positions g).pacman =
            some { p0 with dy := 0, dx := 0, next_dy := 0, next_dx := 0 } := by
          unfold reset_positions
          rw [hgp, hgs]
        rw [hsame] at hp
        injection hp with hp
        rw [← hp]
        exact hv.1 p0 hgp
  · intro gh hgh
    have hgh2 : (∃ s ∈ g.ghost_starts, gh.y = s.y ∧ gh.x = s.x) ∨
        (∃ gh0 ∈ g.ghosts, gh.y = gh0.y ∧ gh.x = gh0.x) := by
      cases hgp : g.pacman with
      | none =>
        have hgh3 : gh ∈ g.ghosts.enum.map (fun iz =>
            let gh1 :=
              match g.ghost_starts.get? iz.1 with
              | some s => { iz.2 with y := s.y, x := s.x }
              | none => iz.2
            { gh1 with dy := 0, dx := 0, frightened := false }) := by
          have h0 : (reset_positions g).ghosts = g.ghosts.enum.map (fun iz =>
              let gh1 :=
                match g.ghost_starts.get? iz.1 with
                | some s => { iz.2 with y := s.y, x := s.x }
                | none => iz.2
              { gh1 with dy := 0, dx := 0, frightened := false }) := by
            unfold reset_positions
            rw [hgp]
          rw [h0] at hgh
          exact hgh
        exact reset_map_pos g.ghosts g.ghost_starts gh hgh3
      | some p0 =>
        have hgh3 : gh ∈ g.ghosts.enum.map (fun iz =>
            let gh1 :=
              match g.ghost_starts.get? iz.1 with
              | some s => { iz.2 with y := s.y, x := s.x }
              | none => iz.2
            { gh1 with dy := 0, dx := 0, frightened := false }) := by
          have h0 : (reset_positions g).ghosts = g.ghosts.enum.map (fun iz =>
              let gh1 :=
                match g.ghost_starts.get? iz.1 with
                | some s => { iz.2 with y := s.y, x := s.x }
                | none => iz.2
              { gh1 with dy := 0, dx := 0, frightened := false }) := by
            unfold reset_positions
            rw [hgp]
          rw [h0] at hgh
          exact hgh
        exact reset_map_pos g.ghosts g.ghost_starts gh hgh3
    rcases hgh2 with ⟨s, hs, hy, hx⟩ | ⟨gh0, h0, hy, hx⟩
    · rw [hy, hx]
      exact hv.2.2.2.1 s hs
    · rw [hy, hx]
      exact hv.2.1 gh0 h0

theorem ValidProp_handle_collision (g : Game) (i : Nat) (hv : ValidProp g) :
    ValidProp (handle_collision g i) := by
  unfold handle_collision
  cases hg : g.ghosts.get? i with
  | none => exact hv
  | some gh =>
    dsimp only
    split
    · refine ValidProp_transfer (⟨rfl, rfl, rfl, rfl, rfl, rfl, rfl⟩ : StaticFrame g _) ?_ ?_ hv
      · intro p hp
        exact hv.1 p hp
      · intro gh2 hgh2
        have hgh3 : gh2 ∈ g.ghosts.set i _ := hgh2
        rcases List.mem_or_eq_of_mem_set hgh3 with h | rfl
        · exact hv.2.1 _ h
        · cases hs : g.ghost_starts.get? i with
          | some s => exact hv.2.2.2.1 s (List.get?_mem hs)
          | none => exact hv.2.1 gh (List.get?_mem hg)
    · split
      · split
        · refine ValidProp_transfer (⟨rfl, rfl, rfl, rfl, rfl, rfl, rfl⟩ : StaticFrame g _)
            (fun p hp => hv.1 p hp) (fun gh2 h => hv.2.1 gh2 h) hv
        · exact ValidProp_reset_positions _ hv
      · exact hv


theorem ValidProp_move_one_ghost (r : Rng) (g : Game) (i : Nat) (hv : ValidProp g) :
    ValidProp (move_one_ghost r g i).1 := by
  unfold move_one_ghost
  cases hg : g.ghosts.get? i with
  | none => exact hv
  | some gh0 =>
    dsimp only
    have hpos := ghost_decide_pos g r gh0
    have hmem0 : gh0 ∈ g.ghosts := List.get?_mem hg
    have hvd : is_valid_move g (ghost_decide g r gh0).1.y (ghost_decide g r gh0).1.x = true := by
      rw [hpos.1, hpos.2]
      exact hv.2.1 gh0 hmem0
    cases hw : warp_target g (ghost_decide g r gh0).1.y (ghost_decide g r gh0).1.x
        (ghost_decide g r gh0).1.dx with
    | some q =>
      dsimp only
      have hq := warp_target_mem _ _ _ _ _ hw
      have hvq : is_valid_move g q.y q.x = true := by
        rcases hq with h | h
        · exact hv.2.2.2.2.1 q h
        · exact hv.2.2.2.2.2 q h
      have hvg2 : ValidProp { g with ghosts := g.ghosts.set i { (ghost_decide g r gh0).1 with y := q.y, x := q.x } } := by
        refine ValidProp_transfer (⟨rfl, rfl, rfl, rfl, rfl, rfl, rfl⟩ : StaticFrame g _)
          (fun p hp => hv.1 p hp) ?_ hv
        intro gh2 hgh2
        rcases List.mem_or_eq_of_mem_set hgh2 with h | rfl
        · exact hv.2.1 _ h
        · exact hvq
      split
      · exact ValidProp_handle_collision _ i hvg2
      · exact hvg2
    | none =>
      dsimp only
      split
      next hmov =>
        have hvg2 : ValidProp { g with ghosts := g.ghosts.set i { (ghost_decide g r gh0).1 with y := (ghost_decide g r gh0).1.y + (ghost_decide g r gh0).1.dy, x := (ghost_decide g r gh0).1.x + (ghost_decide g r gh0).1.dx } } := by
          refine ValidProp_transfer (⟨rfl, rfl, rfl, rfl, rfl, rfl, rfl⟩ : StaticFrame g _)
            (fun p hp => hv.1 p hp) ?_ hv
          intro gh2 hgh2
          rcases List.mem_or_eq_of_mem_set hgh2 with h | rfl
          · exact hv.2.1 _ h
          · exact hmov
        split
        · exact ValidProp_handle_collision _ i hvg2
        · exact hvg2
      next hmov =>
        split
        · refine ValidProp_transfer (⟨rfl, rfl, rfl, rfl, rfl, rfl, rfl⟩ : StaticFrame g _)
            (fun p hp => hv.1 p hp) ?_ hv
          intro gh2 hgh2
          rcases List.mem_or_eq_of_mem_set hgh2 with h | rfl
          · exact hv.2.1 _ h
          · exact hvd
        · refine ValidProp_transfer (⟨rfl, rfl, rfl, rfl, rfl, rfl, rfl⟩ : StaticFrame g _)
            (fun p hp => hv.1 p hp) ?_ hv
          intro gh2 hgh2
          rcases List.mem_or_eq_of_mem_set hgh2 with h | rfl
          · exact hv.2.1 _ h
          · exact hvd

theorem ValidProp_move_ghosts_loop (is : List Nat) :
    ∀ (r : Rng) (g : Game), ValidProp g → ValidProp (move_ghosts_loop r g is) := by
  induction is with
  | nil => intro r g hv; exact hv
  | cons i rest ih =>
    intro r g hv
    simp only [move_ghosts_loop]
    split
    · exact ValidProp_move_one_ghost r g i hv
    · exact ih _ _ (ValidProp_move_one_ghost r g i hv)

theorem ValidProp_move_ghosts (t : ℚ) (r : Rng) (g : Game) (hv : ValidProp g) :
    ValidProp (move_ghosts t r g) := by
  unfold move_ghosts
  dsimp only
  apply ValidProp_move_ghosts_loop
  have hva : ValidProp (if 0 < g.power_mode_time ∧ 6 < t - g.power_mode_time then
      { g with power_mode_time := 0,
               ghosts := g.ghosts.map (fun gh => { gh with frightened := false }) }
    else g) := by
    split
    · refine ValidProp_transfer (⟨rfl, rfl, rfl, rfl, rfl, rfl, rfl⟩ : StaticFrame g _)
        (fun p hp => hv.1 p hp) ?_ hv
      intro gh2 hgh2
      have hgh3 : gh2 ∈ g.ghosts.map (fun gh => { gh with frightened := false }) := hgh2
      obtain ⟨gh0, h0, rfl⟩ := List.mem_map.mp hgh3
      exact hv.2.1 gh0 h0
    · exact hv
  obtain ⟨fa, hu⟩ := update_fruit_char t
    (if 0 < g.power_mode_time ∧ 6 < t - g.power_mode_time then
      { g with power_mode_time := 0,
               ghosts := g.ghosts.map (fun gh => { gh with frightened := false }) }
    else g)
  rw [hu]
  exact hva

theorem ValidProp_check_collisions (g : Game) (hv : ValidProp g) :
    ValidProp (check_collisions g) := by
  unfold check_collisions
  cases g.pacman with
  | none => exact hv
  | some p =>
    dsimp only
    cases collide_index p g.ghosts with
    | none => exact hv
    | some i => exact ValidProp_handle_collision g i hv

theorem ValidProp_tick (t : ℚ) (r : Rng) (g : Game) (hv : ValidProp g) :
    ValidProp (tick t r g) :=
  ValidProp_check_collisions _ (ValidProp_move_ghosts t r _ (ValidProp_move_pacman t g hv))


/-! ### Parse-side lemmas: the parsed world has valid positions -/

theorem getD_set_list {α : Type} (l : List α) (i j : Nat) (a d : α) :
    (l.set i a).getD j d = if i = j ∧ i < l.length then a else l.getD j d := by
  rw [List.getD_eq_getElem?_getD, List.getD_eq_getElem?_getD]
  by_cases hij : i = j
  · subst hij
    by_cases hlen : i < l.length
    · rw [List.getElem?_set_self hlen, if_pos ⟨rfl, hlen⟩]
      rfl
    · rw [if_neg (fun h => hlen h.2)]
      rw [List.set_eq_of_length_le (by omega)]
  · rw [List.getElem?_set_ne hij, if_neg (fun h => hij h.1)]

theorem cellAt_setCell_space (m : List (List Char)) (y x y' x' : Int)
    (h : cellAt m y' x' = ' ') : cellAt (setCell m y x ' ') y' x' = ' ' := by
  unfold cellAt setCell
  rw [getD_set_list]
  split
  case isTrue hc =>
    rw [getD_set_list]
    split
    · rfl
    · rw [hc.1]
      exact h
  case isFalse hc => exact h

theorem cellAt_setCell_self (m : List (List Char)) (y x : Int) (c : Char)
    (hy : y.toNat < m.length) (hx : x.toNat < (m.getD y.toNat []).length) :
    cellAt (setCell m y x c) y x = c := by
  unfold cellAt setCell
  rw [getD_set_list, if_pos ⟨rfl, hy⟩, getD_set_list, if_pos ⟨rfl, hx⟩]

theorem foldl_max_le_foldl (m : List (List Char)) :
    ∀ init : Nat, init ≤ m.foldl (fun w row => max w row.length) init := by
  induction m with
  | nil => intro init; exact le_refl _
  | cons r rest ih =>
    intro init
    exact le_trans (le_max_left _ _) (ih _)

theorem row_le_fold (m : List (List Char)) :
    ∀ (init : Nat) (row : List Char), row ∈ m →
      row.length ≤ m.foldl (fun w row => max w row.length) init := by
  induction m with
  | nil => intro init row h; exact absurd h (List.not_mem_nil _)
  | cons r rest ih =>
    intro init row h
    rcases List.mem_cons.mp h with rfl | h
    · exact le_trans (le_max_right _ _) (foldl_max_le_foldl rest _)
    · exact ih _ row h

theorem row_le_widthOf (m : List (List Char)) : ∀ row ∈ m, row.length ≤ widthOf m :=
  fun row h => row_le_fold m 0 row h

theorem pad_rows (m : List (List Char)) :
    ∀ row ∈ pad_map m, row.length = widthOf m := by
  intro row hrow
  unfold pad_map at hrow
  obtain ⟨r0, h0, rfl⟩ := List.mem_map.mp hrow
  have hle := row_le_widthOf m r0 h0
  simp only [List.length_append, List.length_replicate]
  omega

theorem foldl_max_uniform (W : Nat) :
    ∀ (rows : List (List Char)) (init : Nat), (∀ row ∈ rows, row.length = W) →
      rows.foldl (fun w row => max w row.length) init = init ∨
      rows.foldl (fun w row => max w row.length) init = max init W := by
  intro rows
  induction rows with
  | nil => intro init _; exact Or.inl rfl
  | cons r rest ih =>
    intro init h
    have hr : r.length = W := h r (List.mem_cons_self r rest)
    rcases ih (max init r.length) (fun row hrow => h row (List.mem_cons_of_mem r hrow)) with
      h2 | h2
    · right
      rw [List.foldl_cons, h2, hr]
    · right
      rw [List.foldl_cons, h2, hr, max_assoc, max_self]

theorem widthOf_uniform (rows : List (List Char)) (W : Nat)
    (h : ∀ row ∈ rows, row.length = W) :
    ∀ row ∈ rows, row.length = widthOf rows := by
  cases rows with
  | nil => intro row h2; exact absurd h2 (List.not_mem_nil _)
  | cons r rest =>
    intro row hrow
    have hr : r.length = W := h r (List.mem_cons_self _ _)
    have hrow2 : row.length = W := h row hrow
    unfold widthOf
    rw [List.foldl_cons]
    rcases foldl_max_uniform W rest (max 0 r.length)
        (fun rr hh => h rr (List.mem_cons_of_mem _ hh)) with h2 | h2
    · rw [h2, hr, hrow2]
      exact (Nat.zero_max W).symm
    · rw [h2, hr, hrow2, Nat.zero_max, Nat.max_self]


theorem gridCells_bounds (m : List (List Char)) :
    ∀ c ∈ gridCells m, ∃ (yn xn : Nat), c.1 = (yn : Int) ∧ c.2.1 = (xn : Int) ∧
      yn < m.length ∧ xn < (m.getD yn []).length := by
  intro c hc
  unfold gridCells at hc
  simp only [List.mem_flatten, List.mem_map] at hc
  obtain ⟨sub, ⟨yr, hyr, rfl⟩, hcsub⟩ := hc
  obtain ⟨xc, hxc, rfl⟩ := List.mem_map.mp hcsub
  have hy := List.mem_enum_iff_getElem?.mp hyr
  have hx := List.mem_enum_iff_getElem?.mp hxc
  refine ⟨yr.1, xc.1, rfl, rfl, ?_, ?_⟩
  · exact (List.getElem?_eq_some_iff.mp hy).1
  · have hlen := (List.getElem?_eq_some_iff.mp hx).1
    have hrow : m.getD yr.1 [] = yr.2 := by
      rw [List.getD_eq_getElem?_getD, hy]
      rfl
    rw [hrow]
    exact hlen

theorem mapShape_init (src : Option (List (List Char))) :
    MapShape (init_game (load_map src)) := by
  constructor
  · rfl
  · intro i hi
    have hlt : i < (load_map src).length := hi
    have hmem : (load_map src).getD i [] ∈ load_map src := by
      rw [List.getD_eq_getElem?_getD, List.getElem?_eq_getElem hlt]
      exact List.getElem_mem hlt
    exact widthOf_uniform (load_map src) (widthOf ((src.getD []).map rstrip_slash_n))
      (fun row hrow => pad_rows _ row hrow) _ hmem

theorem parseInv_init (m : List (List Char)) : ParseInv (init_game m) :=
  ⟨fun _ hp => Option.noConfusion hp, fun _ h => absurd h (List.not_mem_nil _),
   fun _ hs => Option.noConfusion hs, fun _ hs => absurd hs (List.not_mem_nil _),
   fun _ hw => Option.noConfusion hw, fun _ hw => Option.noConfusion hw⟩

theorem recOk_blank {g : Game} {y x : Int} (hshape : MapShape g)
    (hy : 0 ≤ y) (hy2 : y < (g.height : Int)) (hx : 0 ≤ x) (hx2 : x < (g.width : Int)) :
    cellAt (setCell g.original_map y x ' ') y x = ' ' := by
  apply cellAt_setCell_self
  · rw [hshape.1]
    omega
  · have hylen : y.toNat < g.original_map.length := by
      rw [hshape.1]
      omega
    rw [hshape.2 y.toNat hylen]
    omega

theorem mapShape_setCell {g : Game} (hshape : MapShape g) (y x : Int) (c : Char) :
    (setCell g.original_map y x c).length = g.height ∧
    ∀ i, i < (setCell g.original_map y x c).length →
      ((setCell g.original_map y x c).getD i []).length = g.width := by
  constructor
  · unfold setCell
    rw [List.length_set]
    exact hshape.1
  · intro i hi
    unfold setCell at hi ⊢
    rw [List.length_set] at hi
    rw [getD_set_list]
    split
    case isTrue hc =>
      rw [List.length_set]
      exact hshape.2 y.toNat hc.2
    case isFalse hc => exact hshape.2 i hi

theorem parseInv_blank (g : Game) (y x : Int) (hinv : ParseInv g) :
    ParseInv { g with original_map := setCell g.original_map y x ' ' } := by
  obtain ⟨h1, h2, h3, h4, h5, h6⟩ := hinv
  refine ⟨?_, ?_, ?_, ?_, ?_, ?_⟩ <;> intro a ha
  · exact ⟨(h1 a ha).1, cellAt_setCell_space _ y x _ _ (h1 a ha).2⟩
  · exact ⟨(h2 a ha).1, cellAt_setCell_space _ y x _ _ (h2 a ha).2⟩
  · exact ⟨(h3 a ha).1, cellAt_setCell_space _ y x _ _ (h3 a ha).2⟩
  · exact ⟨(h4 a ha).1, cellAt_setCell_space _ y x _ _ (h4 a ha).2⟩
  · exact ⟨(h5 a ha).1, cellAt_setCell_space _ y x _ _ (h5 a ha).2⟩
  · exact ⟨(h6 a ha).1, cellAt_setCell_space _ y x _ _ (h6 a ha).2⟩

theorem parse_cell_inv (g : Game) (yxc : Int × Int × Char)
    (hshape : MapShape g) (hinv : ParseInv g)
    (hy : 0 ≤ yxc.1) (hy2 : yxc.1 < (g.height : Int))
    (hx : 0 ≤ yxc.2.1) (hx2 : yxc.2.1 < (g.width : Int)) :
    MapShape (parse_cell g yxc) ∧ ParseInv (parse_cell g yxc) ∧
    (parse_cell g yxc).height = g.height ∧ (parse_cell g yxc).width = g.width := by
  obtain ⟨y, x, c⟩ := yxc
  dsimp only at hy hy2 hx hx2
  unfold parse_cell
  dsimp only
  have hself := recOk_blank hshape hy hy2 hx hx2
  have hsh2 := mapShape_setCell hshape y x ' '
  have hpres := parseInv_blank g y x hinv
  repeat' split
  · -- player marker
    refine ⟨⟨hsh2.1, hsh2.2⟩, ⟨?_, hpres.2.1, ?_, hpres.2.2.2.1,
      hpres.2.2.2.2.1, hpres.2.2.2.2.2⟩, rfl, rfl⟩
    · intro p hp
      have hp2 : some ({ y := y, x := x, dy := 0, dx := 0, next_dy := 0, next_dx := 0 } : PacMan)
          = some p := hp
      injection hp2 with hp2
      rw [← hp2]
      exact ⟨⟨hy, hy2, hx, hx2⟩, hself⟩
    · intro s hs
      have hs2 : some (⟨y, x⟩ : Point) = some s := hs
      injection hs2 with hs2
      rw [← hs2]
      exact ⟨⟨hy, hy2, hx, hx2⟩, hself⟩
  · -- adversary marker
    refine ⟨⟨hsh2.1, hsh2.2⟩, ⟨hpres.1, ?_, hpres.2.2.1, ?_,
      hpres.2.2.2.2.1, hpres.2.2.2.2.2⟩, rfl, rfl⟩
    · intro gh hgh
      have hgh2 : gh ∈ g.ghosts ++ [{ y := y, x := x, dy := 0, dx := 0, frightened := false }] := hgh
      rcases List.mem_append.mp hgh2 with h | h
      · exact hpres.2.1 gh h
      · have hgh3 : gh = { y := y, x := x, dy := 0, dx := 0, frightened := false } :=
          List.mem_singleton.mp h
        rw [hgh3]
        exact ⟨⟨hy, hy2, hx, hx2⟩, hself⟩
    · intro st hst
      have hst2 : st ∈ g.ghost_starts ++ [(⟨y, x⟩ : Point)] := hst
      rcases List.mem_append.mp hst2 with h | h
      · exact hpres.2.2.2.1 st h
      · have hst3 : st = (⟨y, x⟩ : Point) := List.mem_singleton.mp h
        rw [hst3]
        exact ⟨⟨hy, hy2, hx, hx2⟩, hself⟩
  · -- bonus-item marker
    exact ⟨⟨hsh2.1, hsh2.2⟩, ⟨hpres.1, hpres.2.1, hpres.2.2.1, hpres.2.2.2.1,
      hpres.2.2.2.2.1, hpres.2.2.2.2.2⟩, rfl, rfl⟩
  · -- left warp marker
    refine ⟨⟨hsh2.1, hsh2.2⟩, ⟨hpres.1, hpres.2.1, hpres.2.2.1, hpres.2.2.2.1,
      ?_, hpres.2.2.2.2.2⟩, rfl, rfl⟩
    intro w hw
    have hw2 : some (⟨y, x⟩ : Point) = some w := hw
    injection hw2 with hw2
    rw [← hw2]
    exact ⟨⟨hy, hy2, hx, hx2⟩, hself⟩
  · -- right warp marker
    refine ⟨⟨hsh2.1, hsh2.2⟩, ⟨hpres.1, hpres.2.1, hpres.2.2.1, hpres.2.2.2.1,
      hpres.2.2.2.2.1, ?_⟩, rfl, rfl⟩
    intro w hw
    have hw2 : some (⟨y, x⟩ : Point) = some w := hw
    injection hw2 with hw2
    rw [← hw2]
    exact ⟨⟨hy, hy2, hx, hx2⟩, hself⟩
  · exact ⟨⟨hshape.1, hshape.2⟩, hinv, rfl, rfl⟩
  · exact ⟨⟨hshape.1, hshape.2⟩, hinv, rfl, rfl⟩
  · exact ⟨⟨hshape.1, hshape.2⟩, hinv, rfl, rfl⟩

theorem parse_fold_inv :
    ∀ (cs : List (Int × Int × Char)) (g : Game), MapShape g → ParseInv g →
      (∀ c ∈ cs, 0 ≤ c.1 ∧ c.1 < (g.height : Int) ∧ 0 ≤ c.2.1 ∧ c.2.1 < (g.width : Int)) →
      MapShape (cs.foldl parse_cell g) ∧ ParseInv (cs.foldl parse_cell g) := by
  intro cs
  induction cs with
  | nil => intro g hs hi _; exact ⟨hs, hi⟩
  | cons c rest ih =>
    intro g hs hi hb
    have hc := hb c (List.mem_cons_self _ _)
    obtain ⟨hs2, hi2, hh, hw⟩ := parse_cell_inv g c hs hi hc.1 hc.2.1 hc.2.2.1 hc.2.2.2
    rw [List.foldl_cons]
    refine ih (parse_cell g c) hs2 hi2 ?_
    intro c2 h2
    have := hb c2 (List.mem_cons_of_mem _ h2)
    rw [hh, hw]
    exact this

theorem ValidProp_of_parseInv (g : Game) (h : ParseInv g) : ValidProp g := by
  obtain ⟨h1, h2, h3, h4, h5, h6⟩ := h
  have key : ∀ p : Point, recOk g p → is_valid_move g p.y p.x = true := by
    intro p hp
    unfold is_valid_move
    rw [if_pos hp.1, hp.2]
    rfl
  exact ⟨fun p hp => key _ (h1 p hp), fun gh hg => key _ (h2 gh hg),
    fun s hs => key s (h3 s hs), fun s hs => key s (h4 s hs),
    fun w hw => key w (h5 w hw), fun w hw => key w (h6 w hw)⟩

theorem ValidProp_new_game (src : Option (List (List Char))) :
    ValidProp (new_game src) := by
  unfold new_game parse_map
  dsimp only
  have hbounds : ∀ c ∈ gridCells (init_game (load_map src)).original_map,
      0 ≤ c.1 ∧ c.1 < ((init_game (load_map src)).height : Int) ∧
      0 ≤ c.2.1 ∧ c.2.1 < ((init_game (load_map src)).width : Int) := by
    intro c hc
    obtain ⟨yn, xn, hcy, hcx, hyl, hxl⟩ := gridCells_bounds _ c hc
    have hshape := mapShape_init src
    have hrow := hshape.2 yn hyl
    rw [hcy, hcx]
    refine ⟨by omega, ?_, by omega, ?_⟩
    · have : yn < (init_game (load_map src)).height := hshape.1 ▸ hyl
      omega
    · rw [hrow] at hxl
      omega
  obtain ⟨hs, hi⟩ := parse_fold_inv (gridCells (init_game (load_map src)).original_map)
    (init_game (load_map src)) (mapShape_init src) (parseInv_init _) hbounds
  exact ValidProp_of_parseInv _ hi

/-- C10: every agent sits on an in-bounds, non-wall cell after
initialization, and this is preserved by every tick (normal steps are
checked with `is_valid_move`, warps land on the parsed warp endpoints,
resets restore the parsed starts — all of which the parser records on
blanked, open cells). -/
theorem C10_valid_positions :
    (∀ src, ValidPositions (new_game src) = true) ∧
    (∀ g, ValidPositions g = true → ∀ (t : ℚ) (r : Rng), ValidPositions (tick t r g) = true) := by
  constructor
  · intro src
    exact (validPositions_iff _).mpr (ValidProp_new_game src)
  · intro g hv t r
    exact (validPositions_iff _).mpr (ValidProp_tick t r g ((validPositions_iff g).mp hv))

/-- C10 witness: the corridor game is valid and stays valid through a
tick containing a non-fatal collision and reset. -/
theorem C10_witness : ValidPositions (tick 0 ⟨[0], []⟩ gA) = true :=
  C10_valid_positions.2 gA (by decide) 0 ⟨[0], []⟩


/-! ### Collectible safety established by the parser -/

theorem nodup_gridCells_pts (m : List (List Char)) :
    ((gridCells m).map cellPt).Nodup := by
  unfold gridCells
  rw [List.map_flatten, List.map_map, List.nodup_flatten]
  constructor
  · intro l hl
    rw [List.mem_map] at hl
    obtain ⟨yr, _, rfl⟩ := hl
    dsimp only [Function.comp]
    rw [List.map_map]
    have hfun : (cellPt ∘ fun xc : Nat × Char => ((yr.1 : Int), (xc.1 : Int), xc.2))
        = (fun i : Nat => (⟨(yr.1 : Int), (i : Int)⟩ : Point)) ∘ Prod.fst := rfl
    rw [hfun, ← List.map_map]
    refine List.Nodup.map ?_ (List.nodup_enum_map_fst _)
    intro a b hab
    have h2 : ((a : Int)) = (b : Int) := congrArg Point.x hab
    exact Int.natCast_inj.mp h2
  · rw [List.pairwise_map]
    have h : List.Pairwise (fun a b => a ≠ b) (m.enum.map Prod.fst) :=
      List.nodup_enum_map_fst m
    rw [List.pairwise_map] at h
    refine h.imp ?_
    intro a b hab
    intro p hpa hpb
    dsimp only [Function.comp] at hpa hpb
    rw [List.map_map, List.mem_map] at hpa hpb
    obtain ⟨xa, _, ha⟩ := hpa
    obtain ⟨xb, _, hb⟩ := hpb
    have hya : ((a.1 : Int)) = p.y := congrArg Point.y ha
    have hyb : ((b.1 : Int)) = p.y := congrArg Point.y hb
    exact hab (Int.natCast_inj.mp (hya.trans hyb.symm))

theorem parse_cell_safe (g : Game) (yxc : Int × Int × Char) (L : List Point)
    (hq : cellPt yxc ∉ L) (hs : CollectSafe g (cellPt yxc :: L)) :
    CollectSafe (parse_cell g yxc) L := by
  obtain ⟨hdisj, hpel, hpil, hfr, hwl, hwr⟩ := hs
  have hqpel : cellPt yxc ∉ g.pellets := fun h => hpel _ h (List.mem_cons_self _ _)
  have hqpil : cellPt yxc ∉ g.power_pills := fun h => hpil _ h (List.mem_cons_self _ _)
  have wk : ∀ p : Point, p ∉ cellPt yxc :: L → p ∉ L :=
    fun p h hl => h (List.mem_cons_of_mem _ hl)
  have ne_q : ∀ p : Point, p ∉ cellPt yxc :: L → p ≠ cellPt yxc :=
    fun p h he => h (he ▸ List.mem_cons_self _ _)
  unfold parse_cell
  dsimp only
  repeat' split
  · -- player marker: collectible state unchanged
    exact ⟨hdisj, fun p hp => wk p (hpel p hp), fun p hp => wk p (hpil p hp),
      fun f hf => ⟨(hfr f hf).1, (hfr f hf).2.1, wk _ (hfr f hf).2.2⟩,
      fun w hw => ⟨(hwl w hw).1, (hwl w hw).2.1, wk _ (hwl w hw).2.2⟩,
      fun w hw => ⟨(hwr w hw).1, (hwr w hw).2.1, wk _ (hwr w hw).2.2⟩⟩
  · -- adversary marker: collectible state unchanged
    exact ⟨hdisj, fun p hp => wk p (hpel p hp), fun p hp => wk p (hpil p hp),
      fun f hf => ⟨(hfr f hf).1, (hfr f hf).2.1, wk _ (hfr f hf).2.2⟩,
      fun w hw => ⟨(hwl w hw).1, (hwl w hw).2.1, wk _ (hwl w hw).2.2⟩,
      fun w hw => ⟨(hwr w hw).1, (hwr w hw).2.1, wk _ (hwr w hw).2.2⟩⟩
  · -- bonus-item marker: the current cell becomes the bonus cell
    refine ⟨hdisj, fun p hp => wk p (hpel p hp), fun p hp => wk p (hpil p hp), ?_,
      fun w hw => ⟨(hwl w hw).1, (hwl w hw).2.1, wk _ (hwl w hw).2.2⟩,
      fun w hw => ⟨(hwr w hw).1, (hwr w hw).2.1, wk _ (hwr w hw).2.2⟩⟩
    intro f hf
    have hf2 : some (⟨yxc.1, yxc.2.1⟩ : Point) = some f := hf
    injection hf2 with hf2
    rw [← hf2]
    exact ⟨hqpel, hqpil, hq⟩
  · -- left warp marker
    refine ⟨hdisj, fun p hp => wk p (hpel p hp), fun p hp => wk p (hpil p hp),
      fun f hf => ⟨(hfr f hf).1, (hfr f hf).2.1, wk _ (hfr f hf).2.2⟩, ?_,
      fun w hw => ⟨(hwr w hw).1, (hwr w hw).2.1, wk _ (hwr w hw).2.2⟩⟩
    intro w hw
    have hw2 : some (⟨yxc.1, yxc.2.1⟩ : Point) = some w := hw
    injection hw2 with hw2
    rw [← hw2]
    exact ⟨hqpel, hqpil, hq⟩
  · -- right warp marker
    refine ⟨hdisj, fun p hp => wk p (hpel p hp), fun p hp => wk p (hpil p hp),
      fun f hf => ⟨(hfr f hf).1, (hfr f hf).2.1, wk _ (hfr f hf).2.2⟩,
      fun w hw => ⟨(hwl w hw).1, (hwl w hw).2.1, wk _ (hwl w hw).2.2⟩, ?_⟩
    intro w hw
    have hw2 : some (⟨yxc.1, yxc.2.1⟩ : Point) = some w := hw
    injection hw2 with hw2
    rw [← hw2]
    exact ⟨hqpel, hqpil, hq⟩
  · -- pellet: the current cell joins the pellet set
    refine ⟨Finset.disjoint_insert_left.mpr ⟨hqpil, hdisj⟩, ?_,
      fun p hp => wk p (hpil p hp), ?_, ?_, ?_⟩
    · intro p hp
      rcases Finset.mem_insert.mp hp with he | hp2
      · rw [he]; exact hq
      · exact wk p (hpel p hp2)
    · intro f hf
      have h3 := hfr f hf
      refine ⟨?_, h3.2.1, wk _ h3.2.2⟩
      intro hm
      rcases Finset.mem_insert.mp hm with he | hm2
      · exact ne_q _ h3.2.2 he
      · exact h3.1 hm2
    · intro w hw
      have h3 := hwl w hw
      refine ⟨?_, h3.2.1, wk _ h3.2.2⟩
      intro hm
      rcases Finset.mem_insert.mp hm with he | hm2
      · exact ne_q _ h3.2.2 he
      · exact h3.1 hm2
    · intro w hw
      have h3 := hwr w hw
      refine ⟨?_, h3.2.1, wk _ h3.2.2⟩
      intro hm
      rcases Finset.mem_insert.mp hm with he | hm2
      · exact ne_q _ h3.2.2 he
      · exact h3.1 hm2
  · -- power pill: the current cell joins the power-pill set
    refine ⟨Finset.disjoint_insert_right.mpr ⟨hqpel, hdisj⟩,
      fun p hp => wk p (hpel p hp), ?_, ?_, ?_, ?_⟩
    · intro p hp
      rcases Finset.mem_insert.mp hp with he | hp2
      · rw [he]; exact hq
      · exact wk p (hpil p hp2)
    · intro f hf
      have h3 := hfr f hf
      refine ⟨h3.1, ?_, wk _ h3.2.2⟩
      intro hm
      rcases Finset.mem_insert.mp hm with he | hm2
      · exact ne_q _ h3.2.2 he
      · exact h3.2.1 hm2
    · intro w hw
      have h3 := hwl w hw
      refine ⟨h3.1, ?_, wk _ h3.2.2⟩
      intro hm
      rcases Finset.mem_insert.mp hm with he | hm2
      · exact ne_q _ h3.2.2 he
      · exact h3.2.1 hm2
    · intro w hw
      have h3 := hwr w hw
      refine ⟨h3.1, ?_, wk _ h3.2.2⟩
      intro hm
      rcases Finset.mem_insert.mp hm with he | hm2
      · exact ne_q _ h3.2.2 he
      · exact h3.2.1 hm2
  · -- plain cell: nothing recorded
    exact ⟨hdisj, fun p hp => wk p (hpel p hp), fun p hp => wk p (hpil p hp),
      fun f hf => ⟨(hfr f hf).1, (hfr f hf).2.1, wk _ (hfr f hf).2.2⟩,
      fun w hw => ⟨(hwl w hw).1, (hwl w hw).2.1, wk _ (hwl w hw).2.2⟩,
      fun w hw => ⟨(hwr w hw).1, (hwr w hw).2.1, wk _ (hwr w hw).2.2⟩⟩

theorem collectSafe_init (m : List (List Char)) (L : List Point) :
    CollectSafe (init_game m) L := by
  refine ⟨Finset.disjoint_empty_left _, ?_, ?_, ?_, ?_, ?_⟩
  · intro p hp; exact absurd hp (Finset.not_mem_empty p)
  · intro p hp; exact absurd hp (Finset.not_mem_empty p)
  · intro f hf; exact Option.noConfusion hf
  · intro w hw; exact Option.noConfusion hw
  · intro w hw; exact Option.noConfusion hw

theorem parse_fold_safe :
    ∀ (cs : List (Int × Int × Char)) (g : Game), (cs.map cellPt).Nodup →
      CollectSafe g (cs.map cellPt) → CollectSafe (cs.foldl parse_cell g) [] := by
  intro cs
  induction cs with
  | nil => intro g _ h; exact h
  | cons c rest ih =>
    intro g hnd hs
    rw [List.map_cons] at hnd hs
    rw [List.foldl_cons]
    exact ih (parse_cell g c) (List.nodup_cons.mp hnd).2
      (parse_cell_safe g c _ (List.nodup_cons.mp hnd).1 hs)

/-- The parser establishes the collectible side conditions assumed in
the pickup analysis: the pellet and power-pill sets it builds are
disjoint, and the recorded bonus and warp cells are never collectible. -/
theorem new_game_collect_safe (src : Option (List (List Char))) :
    Disjoint (new_game src).pellets (new_game src).power_pills ∧
    (∀ f, (new_game src).fruit = some f →
      (⟨f.y, f.x⟩ : Point) ∉ (new_game src).pellets ∧
      (⟨f.y, f.x⟩ : Point) ∉ (new_game src).power_pills) ∧
    (∀ w, (new_game src).warp_left = some w →
      w ∉ (new_game src).pellets ∧ w ∉ (new_game src).power_pills) ∧
    (∀ w, (new_game src).warp_right = some w →
      w ∉ (new_game src).pellets ∧ w ∉ (new_game src).power_pills) := by
  have h := parse_fold_safe (gridCells (init_game (load_map src)).original_map)
    (init_game (load_map src)) (nodup_gridCells_pts _) (collectSafe_init _ _)
  obtain ⟨h1, _, _, h4, h5, h6⟩ := h
  exact ⟨h1, fun f hf => ⟨(h4 f hf).1, (h4 f hf).2.1⟩,
    fun w hw => ⟨(h5 w hw).1, (h5 w hw).2.1⟩,
    fun w hw => ⟨(h6 w hw).1, (h6 w hw).2.1⟩⟩

end PacmanK3
